import Mathlib

/-!
Builder pattern (`builder-pattern.cpp`)

Shallow embedding of the classes `Car`, `Manual`, `CarBuilder`,
`CarManualBuilder` and `Director`.

* An object reached through a pointer lives in a store; a pointer is an index
  into the store of its class, `new T()` appends a fresh object to that store
  and yields its index.  Nothing is ever deleted by the program.
* A pointer member whose value is indeterminate (before the constructor body
  has assigned it) is `none`.
* A method that dereferences a pointer which does not designate an object has
  no defined result: the embedding returns `none`.
* `uint8_t` values are natural numbers reduced modulo `2 ^ 8` where an argument
  is bound to a `uint8_t` parameter.
-/

namespace BuilderPattern

/-! ## Products -/

/-- Binding of an integer argument to a parameter of type `uint8_t`. -/
def uint8_t (n : Nat) : Nat := n % 256

/-- The data members of `class Car` (lines 37-41). -/
structure Car where
  engine : Bool
  gps : Bool
  tripComputer : Bool
  seats : Nat
deriving DecidableEq, Repr

namespace Car

/-- Source: `void setSeats(uint8_t seats) { this->seats = seats; }` -/
def setSeats (self : Car) (seats : Nat) : Car :=
  { self with seats := uint8_t seats }

/-- Source: `void setEngine(bool hasEngine) { this->engine = hasEngine; }` -/
def setEngine (self : Car) (hasEngine : Bool) : Car :=
  { self with engine := hasEngine }

/-- Source: `void setGPS(bool hasGPS) { this->gps = hasGPS; }` -/
def setGPS (self : Car) (hasGPS : Bool) : Car :=
  { self with gps := hasGPS }

/-- Source: `void setTripComputer(bool hasTripComputer) { this->tripComputer = hasTripComputer; }` -/
def setTripComputer (self : Car) (hasTripComputer : Bool) : Car :=
  { self with tripComputer := hasTripComputer }

/-- The object created by the expression `Car()` in `new Car()`: the default
constructor is defaulted on its first declaration (`Car() = default;`), so the
value-initialisation zero-initialises every data member. -/
def new : Car :=
  { engine := false, gps := false, tripComputer := false, seats := 0 }

end Car

/-- The declaration `class Manual : public Car` (line 46): a `Manual` consists
of its `Car` base subobject and declares no member of its own (the members at
lines 51-55 are commented out). -/
structure Manual extends Car
deriving DecidableEq, Repr

namespace Manual

/-- Member `Car::setSeats`, inherited, acting on the base subobject. -/
def setSeats (self : Manual) (seats : Nat) : Manual :=
  { self with toCar := self.toCar.setSeats seats }

/-- Member `Car::setEngine`, inherited, acting on the base subobject. -/
def setEngine (self : Manual) (hasEngine : Bool) : Manual :=
  { self with toCar := self.toCar.setEngine hasEngine }

/-- Member `Car::setGPS`, inherited, acting on the base subobject. -/
def setGPS (self : Manual) (hasGPS : Bool) : Manual :=
  { self with toCar := self.toCar.setGPS hasGPS }

/-- Member `Car::setTripComputer`, inherited, acting on the base subobject. -/
def setTripComputer (self : Manual) (hasTripComputer : Bool) : Manual :=
  { self with toCar := self.toCar.setTripComputer hasTripComputer }

/-- The object created by `Manual()` in `new Manual()`: `Manual() = default;`,
so value-initialisation zero-initialises the object, base subobject included. -/
def new : Manual := { toCar := Car.new }

end Manual

/-! ## The free store -/

/-- The objects created so far by `new Car()` and by `new Manual()`.  A `Car*`
is an index into `cars`, a `Manual*` an index into `manuals`. -/
structure Memory where
  cars : List Car
  manuals : List Manual
deriving DecidableEq, Repr

namespace Memory

/-- The expression `new Car()`: the pointer to the new object and the store that holds it. -/
def newCar (m : Memory) : Nat × Memory :=
  (m.cars.length, { m with cars := m.cars ++ [Car.new] })

/-- The expression `new Manual()`. -/
def newManual (m : Memory) : Nat × Memory :=
  (m.manuals.length, { m with manuals := m.manuals ++ [Manual.new] })

/-- A member call `car->f(..)` through a `Car*`: undefined unless the pointer
designates an object of the store. -/
def callCar (m : Memory) (car : Option Nat) (f : Car → Car) : Option Memory :=
  match car with
  | none => none
  | some p =>
    match m.cars[p]? with
    | none => none
    | some c => some { m with cars := m.cars.set p (f c) }

/-- A member call `manual->f(..)` through a `Manual*`. -/
def callManual (m : Memory) (manual : Option Nat) (f : Manual → Manual) : Option Memory :=
  match manual with
  | none => none
  | some p =>
    match m.manuals[p]? with
    | none => none
    | some c => some { m with manuals := m.manuals.set p (f c) }

/-- The lvalue-to-rvalue read `*car` through a `Car*`. -/
def derefCar (m : Memory) (car : Option Nat) : Option Car :=
  match car with
  | none => none
  | some p => m.cars[p]?

/-- The read `*manual` through a `Manual*`. -/
def derefManual (m : Memory) (manual : Option Nat) : Option Manual :=
  match manual with
  | none => none
  | some p => m.manuals[p]?

end Memory

/-! ## Concrete builders -/

/-- The data member of `class CarBuilder`: `Car* car;` (line 75). -/
structure CarBuilder where
  car : Option Nat
deriving DecidableEq, Repr

namespace CarBuilder

/-- Source: `void reset() override { this->car = new Car(); }` -/
def reset (_self : CarBuilder) (m : Memory) : CarBuilder × Memory :=
  let (p, m) := m.newCar
  ({ car := some p }, m)

/-- The constructor `CarBuilder() { this->reset(); }`, run on an object whose member `car`
is still indeterminate. -/
def new (m : Memory) : CarBuilder × Memory :=
  reset { car := none } m

/-- Source: `void setSeats(uint8_t seats) override { car->setSeats(seats); }` -/
def setSeats (self : CarBuilder) (seats : Nat) (m : Memory) : Option (CarBuilder × Memory) :=
  (m.callCar self.car (fun c => c.setSeats (uint8_t seats))).map (fun m => (self, m))

/-- Source: `void setEngine(bool hasEngine) override { car->setEngine(hasEngine); }` -/
def setEngine (self : CarBuilder) (hasEngine : Bool) (m : Memory) : Option (CarBuilder × Memory) :=
  (m.callCar self.car (fun c => c.setEngine hasEngine)).map (fun m => (self, m))

/-- Source: `void setTripComputer(bool hasTripComputer) override { car->setTripComputer(hasTripComputer); }` -/
def setTripComputer (self : CarBuilder) (hasTripComputer : Bool) (m : Memory) :
    Option (CarBuilder × Memory) :=
  (m.callCar self.car (fun c => c.setTripComputer hasTripComputer)).map (fun m => (self, m))

/-- Source: `void setGPS(bool hasGPS) override { car->setGPS(hasGPS); }` -/
def setGPS (self : CarBuilder) (hasGPS : Bool) (m : Memory) : Option (CarBuilder × Memory) :=
  (m.callCar self.car (fun c => c.setGPS hasGPS)).map (fun m => (self, m))

/-- Source: `Car getProduct() { Car product = *this->car; this->reset(); return product; }` -/
def getProduct (self : CarBuilder) (m : Memory) : Option (Car × CarBuilder × Memory) :=
  match m.derefCar self.car with
  | none => none
  | some product =>
    let (self, m) := self.reset m
    some (product, self, m)

end CarBuilder

/-- The data member of `class CarManualBuilder`: `Manual* manual;` (line 174). -/
structure CarManualBuilder where
  manual : Option Nat
deriving DecidableEq, Repr

namespace CarManualBuilder

/-- Source: `void reset() override { this->manual = new Manual(); }` -/
def reset (_self : CarManualBuilder) (m : Memory) : CarManualBuilder × Memory :=
  let (p, m) := m.newManual
  ({ manual := some p }, m)

/-- The constructor `CarManualBuilder() { this->reset(); }`. -/
def new (m : Memory) : CarManualBuilder × Memory :=
  reset { manual := none } m

/-- Source: `void setSeats(uint8_t seats) override { this->manual->setSeats(seats); }` -/
def setSeats (self : CarManualBuilder) (seats : Nat) (m : Memory) :
    Option (CarManualBuilder × Memory) :=
  (m.callManual self.manual (fun c => c.setSeats (uint8_t seats))).map (fun m => (self, m))

/-- Source: `void setEngine(bool hasEngine) override { this->manual->setEngine(hasEngine); }` -/
def setEngine (self : CarManualBuilder) (hasEngine : Bool) (m : Memory) :
    Option (CarManualBuilder × Memory) :=
  (m.callManual self.manual (fun c => c.setEngine hasEngine)).map (fun m => (self, m))

/-- Source: `void setTripComputer(bool hasTripComputer) override
{ this->manual->setTripComputer(hasTripComputer); }` -/
def setTripComputer (self : CarManualBuilder) (hasTripComputer : Bool) (m : Memory) :
    Option (CarManualBuilder × Memory) :=
  (m.callManual self.manual (fun c => c.setTripComputer hasTripComputer)).map (fun m => (self, m))

/-- Source: `void setGPS(bool hasGPS) override { this->manual->setGPS(hasGPS); }` -/
def setGPS (self : CarManualBuilder) (hasGPS : Bool) (m : Memory) :
    Option (CarManualBuilder × Memory) :=
  (m.callManual self.manual (fun c => c.setGPS hasGPS)).map (fun m => (self, m))

/-- Source: `Manual getProduct() { Manual product = *this->manual; this->reset(); return product; }` -/
def getProduct (self : CarManualBuilder) (m : Memory) :
    Option (Manual × CarManualBuilder × Memory) :=
  match m.derefManual self.manual with
  | none => none
  | some product =>
    let (self, m) := self.reset m
    some (product, self, m)

end CarManualBuilder

/-! ## The builder interface -/

/-- An object of a class derived from `IBuilder` (lines 60-67), tagged with its dynamic type:
the two classes of the program that override the interface. -/
inductive IBuilder where
  | carBuilder (b : CarBuilder)
  | carManualBuilder (b : CarManualBuilder)
deriving DecidableEq, Repr

/-- The finished object a concrete builder hands out: a `Car` from `CarBuilder::getProduct`,
a `Manual` from `CarManualBuilder::getProduct`. -/
inductive Product where
  | car (c : Car)
  | manual (m : Manual)
deriving DecidableEq, Repr

/-- The four data members of a product; for a `Manual` those of its `Car` base subobject. -/
def Product.fields : Product → Car
  | .car c => c
  | .manual m => m.toCar

namespace IBuilder

/-- Virtual call `builder->reset()`. -/
def reset : IBuilder → Memory → Option (IBuilder × Memory)
  | .carBuilder b, m => let (b, m) := b.reset m; some (.carBuilder b, m)
  | .carManualBuilder b, m => let (b, m) := b.reset m; some (.carManualBuilder b, m)

/-- Virtual call `builder->setSeats(seats)`. -/
def setSeats (seats : Nat) : IBuilder → Memory → Option (IBuilder × Memory)
  | .carBuilder b, m => (b.setSeats seats m).map (fun r => (.carBuilder r.1, r.2))
  | .carManualBuilder b, m => (b.setSeats seats m).map (fun r => (.carManualBuilder r.1, r.2))

/-- Virtual call `builder->setEngine(hasEngine)`. -/
def setEngine (hasEngine : Bool) : IBuilder → Memory → Option (IBuilder × Memory)
  | .carBuilder b, m => (b.setEngine hasEngine m).map (fun r => (.carBuilder r.1, r.2))
  | .carManualBuilder b, m => (b.setEngine hasEngine m).map (fun r => (.carManualBuilder r.1, r.2))

/-- Virtual call `builder->setTripComputer(hasTripComputer)`. -/
def setTripComputer (hasTripComputer : Bool) : IBuilder → Memory → Option (IBuilder × Memory)
  | .carBuilder b, m =>
    (b.setTripComputer hasTripComputer m).map (fun r => (.carBuilder r.1, r.2))
  | .carManualBuilder b, m =>
    (b.setTripComputer hasTripComputer m).map (fun r => (.carManualBuilder r.1, r.2))

/-- Virtual call `builder->setGPS(hasGPS)`. -/
def setGPS (hasGPS : Bool) : IBuilder → Memory → Option (IBuilder × Memory)
  | .carBuilder b, m => (b.setGPS hasGPS m).map (fun r => (.carBuilder r.1, r.2))
  | .carManualBuilder b, m => (b.setGPS hasGPS m).map (fun r => (.carManualBuilder r.1, r.2))

/-- The call `builder->getProduct()` made by a client that holds the builder under its own
class (`CarBuilder*` or `CarManualBuilder*`); the method is not part of the interface. -/
def getProduct : IBuilder → Memory → Option (Product × IBuilder × Memory)
  | .carBuilder b, m => (b.getProduct m).map (fun r => (.car r.1, .carBuilder r.2.1, r.2.2))
  | .carManualBuilder b, m =>
    (b.getProduct m).map (fun r => (.manual r.1, .carManualBuilder r.2.1, r.2.2))

/-- The product the builder is working on, read through its pointer member
(`*car`, `*manual`); `none` when the pointer designates no object. -/
def inProgress : IBuilder → Memory → Option Product
  | .carBuilder b, m => (m.derefCar b.car).map Product.car
  | .carManualBuilder b, m => (m.derefManual b.manual).map Product.manual

end IBuilder

/-- The expression `new CarBuilder()` / a declaration `CarBuilder b;`, as an interface object. -/
def CarBuilder.newI (m : Memory) : IBuilder × Memory :=
  let (b, m) := CarBuilder.new m
  (.carBuilder b, m)

/-- The expression `new CarManualBuilder()`, as an interface object. -/
def CarManualBuilder.newI (m : Memory) : IBuilder × Memory :=
  let (b, m) := CarManualBuilder.new m
  (.carManualBuilder b, m)

/-! ## Sequences of calls on one builder -/

/-- One call of a member function declared in `IBuilder`, with its argument. -/
inductive Call where
  | reset
  | setSeats (seats : Nat)
  | setEngine (hasEngine : Bool)
  | setTripComputer (hasTripComputer : Bool)
  | setGPS (hasGPS : Bool)
deriving DecidableEq, Repr

/-- Whether the call is one of the four setters. -/
def Call.isSetter : Call → Bool
  | .reset => false
  | _ => true

/-- Performs one interface call on the builder. -/
def IBuilder.call (b : IBuilder) (m : Memory) : Call → Option (IBuilder × Memory)
  | .reset => b.reset m
  | .setSeats seats => b.setSeats seats m
  | .setEngine hasEngine => b.setEngine hasEngine m
  | .setTripComputer hasTripComputer => b.setTripComputer hasTripComputer m
  | .setGPS hasGPS => b.setGPS hasGPS m

/-- Performs the calls one after the other, left to right. -/
def IBuilder.calls (b : IBuilder) (m : Memory) : List Call → Option (IBuilder × Memory)
  | [] => some (b, m)
  | c :: cs =>
    match b.call m c with
    | none => none
    | some (b, m) => IBuilder.calls b m cs

/-- One operation of a client on a builder it holds under its own class: an interface call
or a retrieval. -/
inductive Op where
  | call (c : Call)
  | getProduct
deriving DecidableEq, Repr

/-- Performs one client operation; the second component is the product a retrieval returned. -/
def IBuilder.step (b : IBuilder) (m : Memory) : Op → Option (Option Product × IBuilder × Memory)
  | .call c => (b.call m c).map (fun r => (none, r.1, r.2))
  | .getProduct => (b.getProduct m).map (fun r => (some r.1, r.2.1, r.2.2))

/-- Performs the operations left to right and collects the products retrieved, in order. -/
def IBuilder.run (b : IBuilder) (m : Memory) : List Op → Option (List Product × IBuilder × Memory)
  | [] => some ([], b, m)
  | o :: os =>
    match b.step m o with
    | none => none
    | some (r, b, m) =>
      match IBuilder.run b m os with
      | none => none
      | some (rs, b, m) => some (r.toList ++ rs, b, m)

/-! ## Builders behind pointers, the director -/

/-- The state a run of the program works on: the free store of products, the builder objects
(an `IBuilder*`, `CarBuilder*` or `CarManualBuilder*` is an index into `builders`) and the
characters written to `std::cout` so far. -/
structure World where
  memory : Memory
  builders : List IBuilder
  cout : String
deriving DecidableEq, Repr

namespace World

/-- A virtual call `builder->f(..)` through an `IBuilder*`: undefined unless the pointer
designates a builder object; the object and the free store are updated by the callee. -/
def vcall (w : World) (builder : Nat) (f : IBuilder → Memory → Option (IBuilder × Memory)) :
    Option World :=
  match w.builders[builder]? with
  | none => none
  | some b =>
    match f b w.memory with
    | none => none
    | some (b, m) => some { w with memory := m, builders := w.builders.set builder b }

/-- The call `builder->getProduct()` through a pointer to a concrete builder. -/
def getProduct (w : World) (builder : Nat) : Option (Product × World) :=
  match w.builders[builder]? with
  | none => none
  | some b =>
    match b.getProduct w.memory with
    | none => none
    | some (product, b, m) =>
      some (product, { w with memory := m, builders := w.builders.set builder b })

/-- The expression `new CarBuilder()`: the pointer to the new builder and the new state. -/
def newCarBuilder (w : World) : Nat × World :=
  let (b, m) := CarBuilder.newI w.memory
  (w.builders.length, { w with memory := m, builders := w.builders ++ [b] })

/-- The expression `new CarManualBuilder()`. -/
def newCarManualBuilder (w : World) : Nat × World :=
  let (b, m) := CarManualBuilder.newI w.memory
  (w.builders.length, { w with memory := m, builders := w.builders ++ [b] })

end World

/-- The data member of `class Director`: `IBuilder* builder;` (line 185), `none` while it has
not been assigned. -/
structure Director where
  builder : Option Nat
deriving DecidableEq, Repr

namespace Director

/-- Source: `void setBuilder(IBuilder* builder) { this->builder = builder; }` -/
def setBuilder (_self : Director) (builder : Nat) : Director :=
  { builder := some builder }

/-- Member function `Director::constructSportsCar(IBuilder* builder)` (lines 198-207). -/
def constructSportsCar (self : Director) (builder : Nat) (w : World) : Option (Director × World) :=
  match w.vcall builder IBuilder.reset with
  | none => none
  | some w =>
  match w.vcall builder (IBuilder.setSeats 2) with
  | none => none
  | some w =>
  match w.vcall builder (IBuilder.setEngine true) with
  | none => none
  | some w =>
  match w.vcall builder (IBuilder.setTripComputer true) with
  | none => none
  | some w =>
  match w.vcall builder (IBuilder.setGPS false) with
  | none => none
  | some w => some (self, { w with cout := w.cout ++ "Sports Car constructed\n" })

/-- Member function `Director::constructSUV(IBuilder* builder)` (lines 209-218). -/
def constructSUV (self : Director) (builder : Nat) (w : World) : Option (Director × World) :=
  match w.vcall builder IBuilder.reset with
  | none => none
  | some w =>
  match w.vcall builder (IBuilder.setSeats 5) with
  | none => none
  | some w =>
  match w.vcall builder (IBuilder.setEngine false) with
  | none => none
  | some w =>
  match w.vcall builder (IBuilder.setTripComputer false) with
  | none => none
  | some w =>
  match w.vcall builder (IBuilder.setGPS true) with
  | none => none
  | some w => some (self, { w with cout := w.cout ++ "SUV car constructed\n" })

end Director

/-! ## Client programs -/

/-- One statement of a client that owns a director and pointers to builders. -/
inductive Stmt where
  /-- Statement `builder->reset()`, `builder->setSeats(n)`, ... -/
  | call (builder : Nat) (c : Call)
  /-- Statement `builder->getProduct()` -/
  | getProduct (builder : Nat)
  /-- Statement `director->setBuilder(builder)` -/
  | setBuilder (builder : Nat)
  /-- Statement `director->constructSportsCar(builder)` -/
  | constructSportsCar (builder : Nat)
  /-- Statement `director->constructSUV(builder)` -/
  | constructSUV (builder : Nat)
deriving DecidableEq, Repr

/-- The builder pointer a statement passes. -/
def Stmt.target : Stmt → Nat
  | .call builder _ => builder
  | .getProduct builder => builder
  | .setBuilder builder => builder
  | .constructSportsCar builder => builder
  | .constructSUV builder => builder

/-- Executes one statement; the first component is the product a retrieval returned. -/
def Stmt.exec (d : Director) (w : World) : Stmt → Option (Option Product × Director × World)
  | .call builder c => (w.vcall builder (fun b m => b.call m c)).map (fun w => (none, d, w))
  | .getProduct builder => (w.getProduct builder).map (fun r => (some r.1, d, r.2))
  | .setBuilder builder => some (none, d.setBuilder builder, w)
  | .constructSportsCar builder => (d.constructSportsCar builder w).map (fun r => (none, r.1, r.2))
  | .constructSUV builder => (d.constructSUV builder w).map (fun r => (none, r.1, r.2))

/-- Executes the statements in order and collects the products retrieved. -/
def execAll (d : Director) (w : World) : List Stmt → Option (List Product × Director × World)
  | [] => some ([], d, w)
  | s :: ss =>
    match s.exec d w with
    | none => none
    | some (r, d, w) =>
      match execAll d w ss with
      | none => none
      | some (rs, d, w) => some (r.toList ++ rs, d, w)

/-! ## Observations on the state, and auxiliary definitions

`IBuilder.pointer`, `IBuilder.objectAt`, `IBuilder.construct`, `World.inProgress`,
`Stmt.isPreset` and `Stmt.isDirectorCall` occur in the statements of the claims; the other
definitions of this section describe the effect of the operations on the in-progress product
and are used to organise the proofs. -/

/-- The value of the builder's pointer member (`car`, `manual`). -/
def IBuilder.pointer : IBuilder → Option Nat
  | .carBuilder b => b.car
  | .carManualBuilder b => b.manual

/-- The object at address `a` in the store of the product class this builder allocates. -/
def IBuilder.objectAt : IBuilder → Memory → Nat → Option Product
  | .carBuilder _, m, a => (m.cars[a]?).map Product.car
  | .carManualBuilder _, m, a => (m.manuals[a]?).map Product.manual

/-- The object `new Car()` / `new Manual()` of the product class this builder allocates. -/
def IBuilder.fresh : IBuilder → Product
  | .carBuilder _ => .car Car.new
  | .carManualBuilder _ => .manual Manual.new

/-- What an interface call leaves in a product it is forwarded to; `reset` leaves a new
object in its place. -/
def Car.after (c : Car) : Call → Car
  | .reset => Car.new
  | .setSeats seats => c.setSeats seats
  | .setEngine hasEngine => c.setEngine hasEngine
  | .setTripComputer hasTripComputer => c.setTripComputer hasTripComputer
  | .setGPS hasGPS => c.setGPS hasGPS

/-- Lifting of `Car.after` on a product of either class. -/
def Product.after : Product → Call → Product
  | .car c, k => .car (c.after k)
  | .manual x, k => .manual { toCar := x.toCar.after k }

/-- The in-progress product after the calls `cs` have been forwarded to it, one after the
other. -/
def Product.afterAll (p : Product) (cs : List Call) : Product :=
  cs.foldl Product.after p

/-- The products a client retrieves, and the product left in progress, when the operations
`os` are applied to a builder whose in-progress product is `p`: a retrieval hands out the
product and leaves a new object. -/
def Product.trace : Product → List Op → List Product × Product
  | p, [] => ([], p)
  | p, .call c :: os => Product.trace (p.after c) os
  | p, .getProduct :: os =>
    let (rs, p') := Product.trace (p.after Call.reset) os
    (p :: rs, p')

/-- The constructor of the builder's own class run in the store `m`: `CarBuilder()` for a
`CarBuilder`, `CarManualBuilder()` for a `CarManualBuilder`. -/
def IBuilder.construct : IBuilder → Memory → IBuilder × Memory
  | .carBuilder _, m => CarBuilder.newI m
  | .carManualBuilder _, m => CarManualBuilder.newI m

/-- The in-progress product of the builder object the pointer `builder` designates. -/
def World.inProgress (w : World) (builder : Nat) : Option Product :=
  match w.builders[builder]? with
  | none => none
  | some b => b.inProgress w.memory

/-- The store after one more object `x` has been created in it by `new`. -/
def Memory.alloc (m : Memory) : Product → Memory
  | .car c => { m with cars := m.cars ++ [c] }
  | .manual x => { m with manuals := m.manuals ++ [x] }

/-- The builder after its pointer member has been set to the address the next `new` of its
product class yields in the store `m`. -/
def IBuilder.pointTo : IBuilder → Memory → IBuilder
  | .carBuilder _, m => .carBuilder ⟨some m.cars.length⟩
  | .carManualBuilder _, m => .carManualBuilder ⟨some m.manuals.length⟩

/-- The product of the builder's product class whose data members are those of `c`. -/
def IBuilder.make : IBuilder → Car → Product
  | .carBuilder _, c => .car c
  | .carManualBuilder _, c => .manual { toCar := c }

/-- The builder object that `p` designates is of the class of `b0` and owns an in-progress
product at an address other than `a`, while the object at address `a` of its product store
is `x`. -/
def World.KeepsApart (w : World) (p : Nat) (b0 : IBuilder) (a : Nat) (x : Product) : Prop :=
  ∃ b q y, w.builders[p]? = some b ∧ b.objectAt = b0.objectAt ∧ b.pointer = some q ∧
    b.objectAt w.memory q = some y ∧ q ≠ a ∧ b0.objectAt w.memory a = some x

/-- Whether the statement is a call of one of the two presets of the director. -/
def Stmt.isPreset : Stmt → Bool
  | .constructSportsCar _ => true
  | .constructSUV _ => true
  | _ => false

/-- Whether the statement is a call of a member function of the director. -/
def Stmt.isDirectorCall : Stmt → Bool
  | .setBuilder _ => true
  | .constructSportsCar _ => true
  | .constructSUV _ => true
  | _ => false

/-! ## The class declarations -/

/-- The classes that `builder-pattern.cpp` declares. -/
inductive ClassName where
  | Car
  | Manual
  | IBuilder
  | CarBuilder
  | CarManualBuilder
  | Director
  | Application
deriving DecidableEq, Repr

namespace ClassName

/-- The public base classes named in the head of each class declaration
(lines 13, 46, 60, 73, 134, 183 and 224); line 46 reads `class Manual : public Car`. -/
def publicBases : ClassName → List ClassName
  | .Car => []
  | .Manual => [.Car]
  | .IBuilder => []
  | .CarBuilder => [.IBuilder]
  | .CarManualBuilder => [.IBuilder]
  | .Director => []
  | .Application => []

/-- The public member functions each class declares in its own body. -/
def declares : ClassName → List String
  | .Car => ["setSeats", "setEngine", "setGPS", "setTripComputer"]
  | .Manual => []
  | .IBuilder => ["reset", "setSeats", "setEngine", "setTripComputer", "setGPS"]
  | .CarBuilder => ["reset", "setSeats", "setEngine", "setTripComputer", "setGPS", "getProduct"]
  | .CarManualBuilder =>
    ["reset", "setSeats", "setEngine", "setTripComputer", "setGPS", "getProduct"]
  | .Director => ["setBuilder", "constructSportsCar", "constructSUV"]
  | .Application => ["makeCar"]

/-- Whether `base` is the class `derived` itself or is reached from it along at most `fuel`
public base-class links: then a `derived` object converts implicitly to a `base`. -/
def derivesFrom : Nat → ClassName → ClassName → Bool
  | 0, derived, base => derived == base
  | fuel + 1, derived, base =>
    derived == base || derived.publicBases.any (fun c => derivesFrom fuel c base)

/-- Whether an object of class `src` can be used where an object of class `dst` is expected
(seven links exhaust the seven classes). -/
def convertsTo (src dst : ClassName) : Bool :=
  derivesFrom 7 src dst

/-- The public member functions callable on an object of the class within `fuel` base-class
links: those it declares and those its public bases make available. -/
def interface : Nat → ClassName → List String
  | 0, c => c.declares
  | fuel + 1, c => c.declares ++ (c.publicBases.map (interface fuel)).flatten

end ClassName

/-- The object `new Director()` creates: the class has no user-provided constructor, so
value-initialisation zero-initialises the pointer member (a null pointer designates no
builder). -/
def Director.new : Director :=
  { builder := none }

/-- Member function `Application::makeCar` (lines 226-241); the result carries the values of the locals `car`
and `manual` at the end of the body. -/
def Application.makeCar (w : World) : Option (Car × Manual × World) :=
  let director := Director.new
  let builder := w.newCarBuilder.1
  let w := w.newCarBuilder.2
  match director.constructSportsCar builder w with
  | none => none
  | some (director, w) =>
    match w.getProduct builder with
    | some (Product.car car, w) =>
      let manBuilder := w.newCarManualBuilder.1
      let w := w.newCarManualBuilder.2
      match director.constructSportsCar manBuilder w with
      | none => none
      | some (_, w) =>
        match w.getProduct manBuilder with
        | some (Product.manual manual, w) => some (car, manual, w)
        | _ => none
    | _ => none

/-- The data members a setter can assign. -/
inductive Field where
  | seats
  | engine
  | tripComputer
  | gps
deriving DecidableEq, Repr

/-- The data member an interface call assigns in the in-progress product; `reset` assigns
none of them (it replaces the product). -/
def Call.field? : Call → Option Field
  | .reset => none
  | .setSeats _ => some .seats
  | .setEngine _ => some .engine
  | .setTripComputer _ => some .tripComputer
  | .setGPS _ => some .gps

/-- The state at program start: nothing is allocated and nothing has been written to
`std::cout`. -/
def World.initial : World :=
  { memory := { cars := [], manuals := [] }, builders := [], cout := "" }

/-- The function `int main(int argc, char const *argv[])` (lines 244-250):
`Application app; app.makeCar(); return 0;`. The result is the exit status. -/
def main (w : World) : Option (Int × World) :=
  match Application.makeCar w with
  | none => none
  | some (_, _, w) => some (0, w)

end BuilderPattern

/-!
Factory method (`factory-pattern.cpp`)

The classes `WindowsButton`, `HTMLButton`, `WindowsDialog` and `WebDialog` have no data
members, so an object behind an `IButton*` or a `Dialog*` is represented by its dynamic type;
a pointer member that has not been assigned is `none`, and a call through it has no defined
result (`none`).
-/

namespace FactoryPattern

/-- The characters written so far to `std::cout` and to `std::cerr`. -/
structure Streams where
  cout : String
  cerr : String
deriving DecidableEq, Repr

/-- An object of a class derived from `IButton` (lines 3-7): a `WindowsButton` or an
`HTMLButton`. -/
inductive IButton where
  | windowsButton
  | htmlButton
deriving DecidableEq, Repr

namespace IButton

/-- Virtual call `render(a, b)`: `WindowsButton::render` (lines 23-26) or `HTMLButton::render`
(lines 36-39). -/
def render (self : IButton) (_a _b : Int) (s : Streams) : Streams :=
  match self with
  | .windowsButton => { s with cout := s.cout ++ "Rendering a WindowsButton\n" }
  | .htmlButton => { s with cout := s.cout ++ "Rendering a HTMLButton\n" }

/-- Virtual call `onClick(f)`: `WindowsButton::onClick` (lines 28-31) or `HTMLButton::onClick`
(lines 41-44). -/
def onClick (self : IButton) (_f : Int) (s : Streams) : Streams :=
  match self with
  | .windowsButton => { s with cout := s.cout ++ "WindowsButton clicked\n" }
  | .htmlButton => { s with cout := s.cout ++ "HTMLButton clicked\n" }

end IButton

/-- An object of a class derived from `Dialog` (lines 9-20): a `WindowsDialog` or a
`WebDialog`. -/
inductive Dialog where
  | windowsDialog
  | webDialog
deriving DecidableEq, Repr

namespace Dialog

/-- Virtual call `createButton()`: `return new WindowsButton();` (line 52) or
`return new HTMLButton();` (line 62). -/
def createButton : Dialog → IButton
  | .windowsDialog => .windowsButton
  | .webDialog => .htmlButton

/-- Member function `Dialog::render` (lines 14-19):
`IButton* okButton = createButton(); okButton->onClick(0); okButton->render(0, 1);`. -/
def render (self : Dialog) (s : Streams) : Streams :=
  let okButton := self.createButton
  let s := okButton.onClick 0 s
  okButton.render 0 1 s

end Dialog

/-- The data member of `class Application`: `Dialog* dialog;` (line 69). -/
structure Application where
  dialog : Option Dialog
deriving DecidableEq, Repr

namespace Application

/-- Member function `Application::initialize` (lines 71-84); the name is spelt `initialise`
here because the source's spelling is a reserved word. -/
def initialise (self : Application) (s : Streams) : Application × Streams :=
  let os : String := "Web"
  if os = "Windows" then
    ({ self with dialog := some Dialog.windowsDialog }, s)
  else if os = "Web" then
    ({ self with dialog := some Dialog.webDialog }, s)
  else
    (self, { s with cerr := s.cerr ++ "Error! Unkown operating system.\n" })

/-- Member function `Application::start` (lines 86-90): `this->initialize(); dialog->render();`. -/
def start (self : Application) (s : Streams) : Option (Application × Streams) :=
  let r := self.initialise s
  match r.1.dialog with
  | none => none
  | some dialog => some (r.1, dialog.render r.2)

end Application

/-- The function `main` (lines 94-100): `Application app; app.initialize(); app.start();
return 0;`. The declaration `Application app;` leaves the pointer member unassigned. The
result is the exit status. -/
def main (s : Streams) : Option (Int × Streams) :=
  let app : Application := { dialog := none }
  let r := app.initialise s
  match r.1.start r.2 with
  | none => none
  | some (_, s) => some (0, s)

end FactoryPattern

/-!
Abstract factory (`abstract-factory-pattern.cpp`)

The file is not a well-formed translation unit, so its member functions have no behaviour to
embed. What the text does fix is which classes it defines, which class each factory member
function names in its `new` expression, and which return types and stream names it writes:
these are recorded below as tables read off the source lines.
-/

namespace AbstractFactoryPattern

/-- The names of the classes the file defines, in the order of their class heads
(lines 3, 9, 21, 33, 38, 45, 52 and 57); the file ends after `WinCheckbox`. -/
def definedClasses : List String :=
  ["IGUIFactory", "WinFactory", "MacFactory", "IButton", "WinButton", "MacButton",
    "ICheckbox", "WinCheckbox"]

/-- The two factory classes that derive from `IGUIFactory` (lines 9 and 21). -/
inductive Factory where
  | WinFactory
  | MacFactory
deriving DecidableEq, Repr

/-- The two member functions of a factory (lines 5-6). -/
inductive Method where
  | createButton
  | createCheckbox
deriving DecidableEq, Repr

/-- The class name written in the `new` expression that each factory member function returns:
`new WinButton()` (line 12), `new WinCheckbox()` (line 17), `new MacButton()` (line 24) and
`new MacCheckbox()` (line 29). -/
def instantiates : Factory → Method → String
  | .WinFactory, .createButton => "WinButton"
  | .WinFactory, .createCheckbox => "WinCheckbox"
  | .MacFactory, .createButton => "MacButton"
  | .MacFactory, .createCheckbox => "MacCheckbox"

/-- The return type written in the declarations of `IGUIFactory` (lines 5 and 6). -/
def interfaceReturnType : Method → String
  | .createButton => "IButton"
  | .createCheckbox => "ICheckbox"

/-- The return type written in the overriding member functions of the factories
(lines 10, 15, 22 and 27). -/
def overrideReturnType : Factory → Method → String
  | _, .createButton => "IButton*"
  | _, .createCheckbox => "ICheckbox*"

/-- The stream name written in the body of `paint` of each product class that has one:
`cout` in `WinButton` (line 41) and `MacButton` (line 48), `std::cout` in `WinCheckbox`
(line 60). -/
def paintStream : String → Option String
  | "WinButton" => some "cout"
  | "MacButton" => some "cout"
  | "WinCheckbox" => some "std::cout"
  | _ => none

/-- The using-declarations and using-directives of the file: there is none. -/
def usingDeclarations : List String :=
  []

/-- Whether the file defines a class of that name. -/
def isDefined (name : String) : Bool :=
  definedClasses.contains name

end AbstractFactoryPattern

namespace BuilderPattern

/-! ## Lemmas on single operations -/

@[simp] theorem uint8_t_idem (n : Nat) : uint8_t (uint8_t n) = uint8_t n := by
  simp [uint8_t]

theorem inProgress_eq (b : IBuilder) (m : Memory) :
    b.inProgress m = b.pointer.bind (b.objectAt m) := by
  cases b with
  | carBuilder b => cases b with | mk car => cases car <;> simp [IBuilder.inProgress, IBuilder.pointer, IBuilder.objectAt, Memory.derefCar]
  | carManualBuilder b => cases b with | mk manual => cases manual <;> simp [IBuilder.inProgress, IBuilder.pointer, IBuilder.objectAt, Memory.derefManual]

theorem carBuilder_call (m : Memory) (q : Nat) (c0 : Car) (k : Call) (h : m.cars[q]? = some c0) :
    (IBuilder.carBuilder ⟨some q⟩).call m k = some (match k with
      | .reset => (.carBuilder ⟨some m.cars.length⟩, { m with cars := m.cars ++ [Car.new] })
      | _ => (.carBuilder ⟨some q⟩, { m with cars := m.cars.set q (c0.after k) })) := by
  cases k <;>
    simp [IBuilder.call, IBuilder.reset, IBuilder.setSeats, IBuilder.setEngine,
      IBuilder.setTripComputer, IBuilder.setGPS, CarBuilder.reset, CarBuilder.setSeats,
      CarBuilder.setEngine, CarBuilder.setTripComputer, CarBuilder.setGPS, Memory.newCar,
      Memory.callCar, h, Car.after, Car.setSeats]

theorem carManualBuilder_call (m : Memory) (q : Nat) (c0 : Manual) (k : Call)
    (h : m.manuals[q]? = some c0) :
    (IBuilder.carManualBuilder ⟨some q⟩).call m k = some (match k with
      | .reset => (.carManualBuilder ⟨some m.manuals.length⟩,
          { m with manuals := m.manuals ++ [Manual.new] })
      | _ => (.carManualBuilder ⟨some q⟩,
          { m with manuals := m.manuals.set q { toCar := c0.toCar.after k } })) := by
  cases k <;>
    simp [IBuilder.call, IBuilder.reset, IBuilder.setSeats, IBuilder.setEngine,
      IBuilder.setTripComputer, IBuilder.setGPS, CarManualBuilder.reset, CarManualBuilder.setSeats,
      CarManualBuilder.setEngine, CarManualBuilder.setTripComputer, CarManualBuilder.setGPS,
      Memory.newManual, Memory.callManual, h, Car.after, Car.setSeats, Manual.setSeats,
      Manual.setEngine, Manual.setTripComputer, Manual.setGPS]

theorem call_spec {b : IBuilder} {m : Memory} {q : Nat} {p : Product} (c : Call)
    (hq : b.pointer = some q) (hp : b.objectAt m q = some p) :
    ∃ b' m' q', b.call m c = some (b', m') ∧ b'.pointer = some q' ∧
      b'.objectAt m' q' = some (p.after c) ∧ b'.objectAt = b.objectAt ∧ b'.fresh = b.fresh ∧
      (q' = q ∨ b.objectAt m q' = none) ∧
      ∀ a x, a ≠ q' → b.objectAt m a = some x → b.objectAt m' a = some x := by
  cases b with
  | carBuilder b =>
    cases b with | mk car =>
    simp only [IBuilder.pointer] at hq
    subst hq
    simp only [IBuilder.objectAt, Option.map_eq_some'] at hp
    obtain ⟨c0, hc0, rfl⟩ := hp
    have hlt : q < m.cars.length := by
      rcases Nat.lt_or_ge q m.cars.length with h | h
      · exact h
      · simp [List.getElem?_eq_none h] at hc0
    rw [carBuilder_call m q c0 c hc0]
    cases c
    case reset =>
      exact ⟨_, _, _, rfl, rfl, by simp [IBuilder.objectAt, Product.after, Car.after], rfl, rfl,
        Or.inr (by simp [IBuilder.objectAt]), by
          intro a x ha h
          simp only [IBuilder.objectAt, Option.map_eq_some'] at h ⊢
          obtain ⟨y, hy, rfl⟩ := h
          have : a < m.cars.length := by
            rcases Nat.lt_or_ge a m.cars.length with h | h
            · exact h
            · simp [List.getElem?_eq_none h] at hy
          exact ⟨y, by simp [List.getElem?_append_left this, hy], rfl⟩⟩
    all_goals
      exact ⟨_, _, _, rfl, rfl, by simp [IBuilder.objectAt, Product.after, hlt], rfl, rfl,
        Or.inl rfl, by
          intro a x ha h
          simp only [IBuilder.objectAt] at h ⊢
          rw [List.getElem?_set_ne (Ne.symm ha)]
          exact h⟩
  | carManualBuilder b =>
    cases b with | mk manual =>
    simp only [IBuilder.pointer] at hq
    subst hq
    simp only [IBuilder.objectAt, Option.map_eq_some'] at hp
    obtain ⟨c0, hc0, rfl⟩ := hp
    have hlt : q < m.manuals.length := by
      rcases Nat.lt_or_ge q m.manuals.length with h | h
      · exact h
      · simp [List.getElem?_eq_none h] at hc0
    rw [carManualBuilder_call m q c0 c hc0]
    cases c
    case reset =>
      exact ⟨_, _, _, rfl, rfl, by simp [IBuilder.objectAt, Product.after, Car.after, Manual.new],
        rfl, rfl, Or.inr (by simp [IBuilder.objectAt]), by
          intro a x ha h
          simp only [IBuilder.objectAt, Option.map_eq_some'] at h ⊢
          obtain ⟨y, hy, rfl⟩ := h
          have : a < m.manuals.length := by
            rcases Nat.lt_or_ge a m.manuals.length with h | h
            · exact h
            · simp [List.getElem?_eq_none h] at hy
          exact ⟨y, by simp [List.getElem?_append_left this, hy], rfl⟩⟩
    all_goals
      exact ⟨_, _, _, rfl, rfl, by simp [IBuilder.objectAt, Product.after, hlt], rfl, rfl,
        Or.inl rfl, by
          intro a x ha h
          simp only [IBuilder.objectAt] at h ⊢
          rw [List.getElem?_set_ne (Ne.symm ha)]
          exact h⟩

theorem reset_spec (b : IBuilder) (m : Memory) :
    ∃ b' m' q', b.reset m = some (b', m') ∧ b'.pointer = some q' ∧
      b'.objectAt m' q' = some b.fresh ∧ b'.objectAt = b.objectAt ∧ b'.fresh = b.fresh ∧
      b.objectAt m q' = none ∧
      ∀ a x, b.objectAt m a = some x → b.objectAt m' a = some x := by
  cases b with
  | carBuilder b =>
    refine ⟨_, _, _, rfl, rfl, by simp [IBuilder.objectAt, IBuilder.fresh], rfl, rfl,
      by simp [IBuilder.objectAt], ?_⟩
    intro a x h
    simp only [IBuilder.objectAt, Option.map_eq_some'] at h ⊢
    obtain ⟨y, hy, rfl⟩ := h
    have : a < m.cars.length := by
      rcases Nat.lt_or_ge a m.cars.length with h | h
      · exact h
      · simp [List.getElem?_eq_none h] at hy
    exact ⟨y, by simp [List.getElem?_append_left this, hy], rfl⟩
  | carManualBuilder b =>
    refine ⟨_, _, _, rfl, rfl, by simp [IBuilder.objectAt, IBuilder.fresh], rfl, rfl,
      by simp [IBuilder.objectAt], ?_⟩
    intro a x h
    simp only [IBuilder.objectAt, Option.map_eq_some'] at h ⊢
    obtain ⟨y, hy, rfl⟩ := h
    have : a < m.manuals.length := by
      rcases Nat.lt_or_ge a m.manuals.length with h | h
      · exact h
      · simp [List.getElem?_eq_none h] at hy
    exact ⟨y, by simp [List.getElem?_append_left this, hy], rfl⟩

theorem fresh_eq_after_reset {b : IBuilder} {m : Memory} {q : Nat} {p : Product}
    (hp : b.objectAt m q = some p) : b.fresh = p.after Call.reset := by
  cases b <;> simp only [IBuilder.objectAt, Option.map_eq_some'] at hp <;>
    obtain ⟨y, _, rfl⟩ := hp <;> rfl

theorem getProduct_spec {b : IBuilder} {m : Memory} {q : Nat} {p : Product}
    (hq : b.pointer = some q) (hp : b.objectAt m q = some p) :
    ∃ b' m' q', b.getProduct m = some (p, b', m') ∧ b.reset m = some (b', m') ∧
      b'.pointer = some q' ∧
      b'.objectAt m' q' = some (p.after Call.reset) ∧ b'.objectAt = b.objectAt ∧
      b'.fresh = b.fresh ∧ b.objectAt m q' = none ∧
      ∀ a x, b.objectAt m a = some x → b.objectAt m' a = some x := by
  obtain ⟨b', m', q', h1, h2, h3, h4, h5, h6, h7⟩ := reset_spec b m
  refine ⟨b', m', q', ?_, h1, h2, ?_, h4, h5, h6, h7⟩
  · cases b with
    | carBuilder b =>
      cases b with | mk car =>
      simp only [IBuilder.pointer] at hq
      subst hq
      simp only [IBuilder.objectAt, Option.map_eq_some'] at hp
      obtain ⟨c0, hc0, rfl⟩ := hp
      simp only [IBuilder.reset] at h1
      simp [IBuilder.getProduct, CarBuilder.getProduct, Memory.derefCar, hc0]
      simpa using h1
    | carManualBuilder b =>
      cases b with | mk manual =>
      simp only [IBuilder.pointer] at hq
      subst hq
      simp only [IBuilder.objectAt, Option.map_eq_some'] at hp
      obtain ⟨c0, hc0, rfl⟩ := hp
      simp only [IBuilder.reset] at h1
      simp [IBuilder.getProduct, CarManualBuilder.getProduct, Memory.derefManual, hc0]
      simpa using h1
  · rw [h3, fresh_eq_after_reset hp]

theorem inProgress_iff (b : IBuilder) (m : Memory) (p : Product) :
    b.inProgress m = some p ↔ ∃ q, b.pointer = some q ∧ b.objectAt m q = some p := by
  rw [inProgress_eq]
  cases h : b.pointer <;> simp

theorem call_inProgress {b : IBuilder} {m : Memory} {p : Product} (c : Call)
    (h : b.inProgress m = some p) :
    ∃ b' m', b.call m c = some (b', m') ∧ b'.inProgress m' = some (p.after c) ∧
      b'.fresh = b.fresh := by
  obtain ⟨q, hq, hp⟩ := (inProgress_iff b m p).1 h
  obtain ⟨b', m', q', h1, h2, h3, _, h5, _⟩ := call_spec c hq hp
  exact ⟨b', m', h1, (inProgress_iff b' m' _).2 ⟨q', h2, h3⟩, h5⟩

theorem reset_inProgress (b : IBuilder) (m : Memory) :
    ∃ b' m', b.reset m = some (b', m') ∧ b'.inProgress m' = some b.fresh ∧
      b'.fresh = b.fresh := by
  obtain ⟨b', m', q', h1, h2, h3, _, h5, _⟩ := reset_spec b m
  exact ⟨b', m', h1, (inProgress_iff b' m' _).2 ⟨q', h2, h3⟩, h5⟩

theorem getProduct_inProgress {b : IBuilder} {m : Memory} {p : Product}
    (h : b.inProgress m = some p) :
    ∃ b' m', b.getProduct m = some (p, b', m') ∧
      b'.inProgress m' = some (p.after Call.reset) ∧ b'.fresh = b.fresh := by
  obtain ⟨q, hq, hp⟩ := (inProgress_iff b m p).1 h
  obtain ⟨b', m', q', h1, _, h2, h3, _, h5, _⟩ := getProduct_spec hq hp
  exact ⟨b', m', h1, (inProgress_iff b' m' _).2 ⟨q', h2, h3⟩, h5⟩

theorem fresh_eq_of_inProgress {b : IBuilder} {m : Memory} {p : Product}
    (h : b.inProgress m = some p) : b.fresh = p.after Call.reset := by
  obtain ⟨q, _, hp⟩ := (inProgress_iff b m p).1 h
  exact fresh_eq_after_reset hp

/-! ## Lemmas on sequences of operations -/

theorem calls_spec (cs : List Call) {b : IBuilder} {m : Memory} {p : Product}
    (h : b.inProgress m = some p) :
    ∃ b' m', b.calls m cs = some (b', m') ∧ b'.inProgress m' = some (p.afterAll cs) ∧
      b'.fresh = b.fresh := by
  induction cs generalizing b m p with
  | nil => exact ⟨b, m, rfl, h, rfl⟩
  | cons c cs ih =>
    obtain ⟨b1, m1, h1, h2, h3⟩ := call_inProgress c h
    obtain ⟨b2, m2, h4, h5, h6⟩ := ih h2
    refine ⟨b2, m2, ?_, h5, h6.trans h3⟩
    simp only [IBuilder.calls, h1]
    exact h4

theorem run_spec (os : List Op) {b : IBuilder} {m : Memory} {p : Product}
    (h : b.inProgress m = some p) :
    ∃ b' m', b.run m os = some ((p.trace os).1, b', m') ∧
      b'.inProgress m' = some (p.trace os).2 ∧ b'.fresh = b.fresh := by
  induction os generalizing b m p with
  | nil => exact ⟨b, m, rfl, h, rfl⟩
  | cons o os ih =>
    cases o with
    | call c =>
      obtain ⟨b1, m1, h1, h2, h3⟩ := call_inProgress c h
      obtain ⟨b2, m2, h4, h5, h6⟩ := ih h2
      refine ⟨b2, m2, ?_, h5, h6.trans h3⟩
      simp [IBuilder.run, IBuilder.step, h1, h4, Product.trace]
    | getProduct =>
      obtain ⟨b1, m1, h1, h2, h3⟩ := getProduct_inProgress h
      obtain ⟨b2, m2, h4, h5, h6⟩ := ih h2
      refine ⟨b2, m2, ?_, h5, h6.trans h3⟩
      simp [IBuilder.run, IBuilder.step, h1, h4, Product.trace]

theorem construct_inProgress (b : IBuilder) (m : Memory) :
    (b.construct m).1.inProgress (b.construct m).2 = some b.fresh ∧
      (b.construct m).1.fresh = b.fresh := by
  cases b <;>
    simp [IBuilder.construct, CarBuilder.newI, CarBuilder.new, CarBuilder.reset, Memory.newCar,
      CarManualBuilder.newI, CarManualBuilder.new, CarManualBuilder.reset, Memory.newManual,
      IBuilder.inProgress, Memory.derefCar, Memory.derefManual, IBuilder.fresh]

theorem fresh_fields (b : IBuilder) :
    b.fresh.fields = { engine := false, gps := false, tripComputer := false, seats := 0 } := by
  cases b <;> rfl

theorem run_products_eq (os : List Op) {b b' : IBuilder} {m m' : Memory} {p : Product}
    (h : b.inProgress m = some p) (h' : b'.inProgress m' = some p) :
    ∃ rs, (b.run m os).map Prod.fst = some rs ∧ (b'.run m' os).map Prod.fst = some rs := by
  obtain ⟨_, _, h1, _⟩ := run_spec os h
  obtain ⟨_, _, h2, _⟩ := run_spec os h'
  exact ⟨(p.trace os).1, by simp [h1], by simp [h2]⟩

@[simp] theorem fields_after (p : Product) (k : Call) : (p.after k).fields = p.fields.after k := by
  cases p <;> rfl

theorem fields_afterAll (cs : List Call) (p : Product) :
    (p.afterAll cs).fields = cs.foldl Car.after p.fields := by
  induction cs generalizing p with
  | nil => rfl
  | cons k cs ih => simp [Product.afterAll, List.foldl_cons] at ih ⊢; rw [ih]; simp

theorem seats_foldl (post : List Call) (c : Car) (h : ∀ k ∈ post, k.isSetter = true)
    (h2 : ∀ n, Call.setSeats n ∉ post) : (post.foldl Car.after c).seats = c.seats := by
  induction post generalizing c with
  | nil => rfl
  | cons k ks ih =>
    simp only [List.foldl_cons]
    rw [ih _ (fun k hk => h k (List.mem_cons_of_mem _ hk))
      (fun n hn => h2 n (List.mem_cons_of_mem _ hn))]
    cases k with
    | reset => simpa [Call.isSetter] using h Call.reset
    | setSeats n => exact absurd (List.mem_cons_self _ _) (h2 n)
    | _ => rfl

theorem engine_foldl (post : List Call) (c : Car) (h : ∀ k ∈ post, k.isSetter = true)
    (h2 : ∀ x, Call.setEngine x ∉ post) : (post.foldl Car.after c).engine = c.engine := by
  induction post generalizing c with
  | nil => rfl
  | cons k ks ih =>
    simp only [List.foldl_cons]
    rw [ih _ (fun k hk => h k (List.mem_cons_of_mem _ hk))
      (fun n hn => h2 n (List.mem_cons_of_mem _ hn))]
    cases k with
    | reset => simpa [Call.isSetter] using h Call.reset
    | setEngine n => exact absurd (List.mem_cons_self _ _) (h2 n)
    | _ => rfl

theorem tripComputer_foldl (post : List Call) (c : Car) (h : ∀ k ∈ post, k.isSetter = true)
    (h2 : ∀ x, Call.setTripComputer x ∉ post) :
    (post.foldl Car.after c).tripComputer = c.tripComputer := by
  induction post generalizing c with
  | nil => rfl
  | cons k ks ih =>
    simp only [List.foldl_cons]
    rw [ih _ (fun k hk => h k (List.mem_cons_of_mem _ hk))
      (fun n hn => h2 n (List.mem_cons_of_mem _ hn))]
    cases k with
    | reset => simpa [Call.isSetter] using h Call.reset
    | setTripComputer n => exact absurd (List.mem_cons_self _ _) (h2 n)
    | _ => rfl

theorem gps_foldl (post : List Call) (c : Car) (h : ∀ k ∈ post, k.isSetter = true)
    (h2 : ∀ x, Call.setGPS x ∉ post) : (post.foldl Car.after c).gps = c.gps := by
  induction post generalizing c with
  | nil => rfl
  | cons k ks ih =>
    simp only [List.foldl_cons]
    rw [ih _ (fun k hk => h k (List.mem_cons_of_mem _ hk))
      (fun n hn => h2 n (List.mem_cons_of_mem _ hn))]
    cases k with
    | reset => simpa [Call.isSetter] using h Call.reset
    | setGPS n => exact absurd (List.mem_cons_self _ _) (h2 n)
    | _ => rfl

/-! ## Lemmas on the director -/

theorem set_append_length {α : Type} (l : List α) (a b : α) :
    (l ++ [a]).set l.length b = l ++ [b] := by
  induction l with
  | nil => rfl
  | cons x xs ih => simp [ih]

theorem lt_of_getElem?_eq_some {α : Type} {l : List α} {i : Nat} {x : α}
    (h : l[i]? = some x) : i < l.length := by
  rcases Nat.lt_or_ge i l.length with h' | h'
  · exact h'
  · simp [List.getElem?_eq_none h'] at h

theorem getElem?_set_self_of_some {α : Type} {l : List α} {i : Nat} {x : α} (y : α)
    (h : l[i]? = some x) : (l.set i y)[i]? = some y := by
  simp [lt_of_getElem?_eq_some h]

theorem constructSportsCar_eq (d : Director) (w : World) (p : Nat) (b : IBuilder)
    (hb : w.builders[p]? = some b) :
    d.constructSportsCar p w = some (d,
      { memory := w.memory.alloc (b.make ⟨true, false, true, 2⟩),
        builders := w.builders.set p (b.pointTo w.memory),
        cout := w.cout ++ "Sports Car constructed\n" }) := by
  have hp := lt_of_getElem?_eq_some hb
  cases b with
  | carBuilder cb =>
    simp [Director.constructSportsCar, World.vcall, hb, hp, IBuilder.reset, IBuilder.setSeats,
      IBuilder.setEngine, IBuilder.setTripComputer, IBuilder.setGPS, CarBuilder.reset,
      CarBuilder.setSeats, CarBuilder.setEngine, CarBuilder.setTripComputer, CarBuilder.setGPS,
      Memory.newCar, Memory.callCar, Car.setSeats, Car.setEngine, Car.setTripComputer,
      Car.setGPS, Car.new, uint8_t, set_append_length, Memory.alloc, IBuilder.make,
      IBuilder.pointTo]
  | carManualBuilder mb =>
    simp [Director.constructSportsCar, World.vcall, hb, hp, IBuilder.reset, IBuilder.setSeats,
      IBuilder.setEngine, IBuilder.setTripComputer, IBuilder.setGPS, CarManualBuilder.reset,
      CarManualBuilder.setSeats, CarManualBuilder.setEngine, CarManualBuilder.setTripComputer,
      CarManualBuilder.setGPS, Memory.newManual, Memory.callManual, Manual.setSeats,
      Manual.setEngine, Manual.setTripComputer, Manual.setGPS, Manual.new, Car.setSeats,
      Car.setEngine, Car.setTripComputer, Car.setGPS, Car.new, uint8_t, set_append_length,
      Memory.alloc, IBuilder.make, IBuilder.pointTo]

theorem constructSUV_eq (d : Director) (w : World) (p : Nat) (b : IBuilder)
    (hb : w.builders[p]? = some b) :
    d.constructSUV p w = some (d,
      { memory := w.memory.alloc (b.make ⟨false, true, false, 5⟩),
        builders := w.builders.set p (b.pointTo w.memory),
        cout := w.cout ++ "SUV car constructed\n" }) := by
  have hp := lt_of_getElem?_eq_some hb
  cases b with
  | carBuilder cb =>
    simp [Director.constructSUV, World.vcall, hb, hp, IBuilder.reset, IBuilder.setSeats,
      IBuilder.setEngine, IBuilder.setTripComputer, IBuilder.setGPS, CarBuilder.reset,
      CarBuilder.setSeats, CarBuilder.setEngine, CarBuilder.setTripComputer, CarBuilder.setGPS,
      Memory.newCar, Memory.callCar, Car.setSeats, Car.setEngine, Car.setTripComputer,
      Car.setGPS, Car.new, uint8_t, set_append_length, Memory.alloc, IBuilder.make,
      IBuilder.pointTo]
  | carManualBuilder mb =>
    simp [Director.constructSUV, World.vcall, hb, hp, IBuilder.reset, IBuilder.setSeats,
      IBuilder.setEngine, IBuilder.setTripComputer, IBuilder.setGPS, CarManualBuilder.reset,
      CarManualBuilder.setSeats, CarManualBuilder.setEngine, CarManualBuilder.setTripComputer,
      CarManualBuilder.setGPS, Memory.newManual, Memory.callManual, Manual.setSeats,
      Manual.setEngine, Manual.setTripComputer, Manual.setGPS, Manual.new, Car.setSeats,
      Car.setEngine, Car.setTripComputer, Car.setGPS, Car.new, uint8_t, set_append_length,
      Memory.alloc, IBuilder.make, IBuilder.pointTo]

theorem pointTo_inProgress (b : IBuilder) (m : Memory) (c : Car) :
    (b.pointTo m).inProgress (m.alloc (b.make c)) = some (b.make c) := by
  cases b <;>
    simp [IBuilder.pointTo, Memory.alloc, IBuilder.make, IBuilder.inProgress, Memory.derefCar,
      Memory.derefManual]

theorem pointTo_spec (b : IBuilder) (m : Memory) (c : Car) :
    ∃ q, (b.pointTo m).pointer = some q ∧ b.objectAt m q = none ∧
      (b.pointTo m).objectAt (m.alloc (b.make c)) q = some (b.make c) ∧
      (b.pointTo m).objectAt = b.objectAt ∧ (b.pointTo m).fresh = b.fresh ∧
      (b.pointTo m).make = b.make := by
  cases b <;>
    exact ⟨_, rfl, by simp [IBuilder.objectAt],
      by simp [IBuilder.pointTo, Memory.alloc, IBuilder.make, IBuilder.objectAt], rfl, rfl, rfl⟩

theorem objectAt_alloc (b : IBuilder) (m : Memory) (y : Product) {a : Nat} {x : Product}
    (h : b.objectAt m a = some x) : b.objectAt (m.alloc y) a = some x := by
  cases b <;> cases y <;> simp only [IBuilder.objectAt, Memory.alloc, Option.map_eq_some'] at h ⊢
    <;> obtain ⟨z, hz, rfl⟩ := h
    <;> first
      | exact ⟨z, hz, rfl⟩
      | exact ⟨z, by simp [List.getElem?_append_left (lt_of_getElem?_eq_some hz), hz], rfl⟩

theorem inProgress_alloc (b : IBuilder) (m : Memory) (y : Product) {x : Product}
    (h : b.inProgress m = some x) : b.inProgress (m.alloc y) = some x := by
  obtain ⟨q, hq, hx⟩ := (inProgress_iff b m x).1 h
  exact (inProgress_iff b _ x).2 ⟨q, hq, objectAt_alloc b m y hx⟩

theorem world_getProduct_eq {w : World} {p : Nat} {b b' : IBuilder} {m' : Memory} {x : Product}
    (hb : w.builders[p]? = some b) (hg : b.getProduct w.memory = some (x, b', m')) :
    w.getProduct p = some (x,
      { memory := m', builders := w.builders.set p b', cout := w.cout }) := by
  simp [World.getProduct, hb, hg]

theorem make_fields (b : IBuilder) (c : Car) : (b.make c).fields = c := by
  cases b <;> rfl

theorem vcall_eq {w : World} {p : Nat} {b b' : IBuilder} {m' : Memory}
    {f : IBuilder → Memory → Option (IBuilder × Memory)}
    (hb : w.builders[p]? = some b) (hf : f b w.memory = some (b', m')) :
    w.vcall p f = some { memory := m', builders := w.builders.set p b', cout := w.cout } := by
  simp [World.vcall, hb, hf]

theorem keepsApart_of_step {w : World} {p : Nat} {b0 b b' : IBuilder} {a q q' : Nat}
    {x y' : Product} {m' : Memory} (c : String)
    (hb : w.builders[p]? = some b) (hcls : b.objectAt = b0.objectAt) (hqa : q ≠ a)
    (hx : b0.objectAt w.memory a = some x)
    (h2 : b'.pointer = some q') (h3 : b'.objectAt m' q' = some y')
    (h4 : b'.objectAt = b.objectAt) (h5 : q' = q ∨ b.objectAt w.memory q' = none)
    (h6 : ∀ a x, a ≠ q' → b.objectAt w.memory a = some x → b.objectAt m' a = some x) :
    World.KeepsApart { memory := m', builders := w.builders.set p b', cout := c } p b0 a x := by
  have hne : q' ≠ a := by
    rcases h5 with h | h
    · rw [h]; exact hqa
    · intro e
      rw [e, hcls, hx] at h
      cases h
  refine ⟨b', q', y', getElem?_set_self_of_some _ hb, h4.trans hcls, h2, h3, hne, ?_⟩
  rw [← hcls]
  exact h6 a x (Ne.symm hne) (by rw [hcls]; exact hx)

theorem exec_keepsApart (s : Stmt) (d : Director) {w : World} {p : Nat} {b0 : IBuilder}
    {a : Nat} {x : Product} (hs : s.target = p) (h : w.KeepsApart p b0 a x) :
    ∃ r d' w', s.exec d w = some (r, d', w') ∧ w'.KeepsApart p b0 a x := by
  obtain ⟨b, q, y, hb, hcls, hq, hy, hqa, hx⟩ := h
  cases s with
  | call t c =>
    simp only [Stmt.target] at hs
    subst hs
    obtain ⟨b', m', q', h1, h2, h3, h4, _, h5, h6⟩ := call_spec c hq hy
    have hv := vcall_eq (f := fun b m => b.call m c) hb h1
    refine ⟨none, d, ⟨m', w.builders.set t b', w.cout⟩, by simp [Stmt.exec, hv], ?_⟩
    exact keepsApart_of_step _ hb hcls hqa hx h2 h3 h4 h5 h6
  | getProduct t =>
    simp only [Stmt.target] at hs
    subst hs
    obtain ⟨b', m', q', h1, _, h2, h3, h4, _, h5, h6⟩ := getProduct_spec hq hy
    refine ⟨some y, d, ⟨m', w.builders.set t b', w.cout⟩,
      by simp [Stmt.exec, world_getProduct_eq hb h1], ?_⟩
    exact keepsApart_of_step _ hb hcls hqa hx h2 h3 h4 (Or.inr h5) (fun a x _ => h6 a x)
  | setBuilder t =>
    exact ⟨none, _, w, rfl, b, q, y, hb, hcls, hq, hy, hqa, hx⟩
  | constructSportsCar t =>
    simp only [Stmt.target] at hs
    subst hs
    obtain ⟨q', h2, h5, h3, h4, _⟩ := pointTo_spec b w.memory ⟨true, false, true, 2⟩
    refine ⟨none, d, ⟨w.memory.alloc (b.make ⟨true, false, true, 2⟩),
      w.builders.set t (b.pointTo w.memory), w.cout ++ "Sports Car constructed\n"⟩,
      by simp [Stmt.exec, constructSportsCar_eq d w t b hb], ?_⟩
    exact keepsApart_of_step _ hb hcls hqa hx h2 h3 h4 (Or.inr h5)
      (fun a x _ h => objectAt_alloc b w.memory _ h)
  | constructSUV t =>
    simp only [Stmt.target] at hs
    subst hs
    obtain ⟨q', h2, h5, h3, h4, _⟩ := pointTo_spec b w.memory ⟨false, true, false, 5⟩
    refine ⟨none, d, ⟨w.memory.alloc (b.make ⟨false, true, false, 5⟩),
      w.builders.set t (b.pointTo w.memory), w.cout ++ "SUV car constructed\n"⟩,
      by simp [Stmt.exec, constructSUV_eq d w t b hb], ?_⟩
    exact keepsApart_of_step _ hb hcls hqa hx h2 h3 h4 (Or.inr h5)
      (fun a x _ h => objectAt_alloc b w.memory _ h)

theorem execAll_keepsApart (stmts : List Stmt) (d : Director) {w : World} {p : Nat}
    {b0 : IBuilder} {a : Nat} {x : Product} (hs : ∀ s ∈ stmts, s.target = p)
    (h : w.KeepsApart p b0 a x) :
    ∃ rs d' w', execAll d w stmts = some (rs, d', w') ∧ w'.KeepsApart p b0 a x := by
  induction stmts generalizing d w with
  | nil => exact ⟨[], d, w, rfl, h⟩
  | cons s ss ih =>
    obtain ⟨r, d1, w1, h1, h2⟩ := exec_keepsApart s d (hs s (List.mem_cons_self _ _)) h
    obtain ⟨rs, d2, w2, h3, h4⟩ := ih d1 (fun s hs' => hs s (List.mem_cons_of_mem _ hs')) h2
    exact ⟨r.toList ++ rs, d2, w2, by simp [execAll, h1, h3], h4⟩

theorem afterAll_car (cs : List Call) (c : Car) :
    (Product.car c).afterAll cs = Product.car (cs.foldl Car.after c) := by
  induction cs generalizing c with
  | nil => rfl
  | cons k ks ih => exact ih (c.after k)

theorem afterAll_manual (cs : List Call) (x : Manual) :
    (Product.manual x).afterAll cs = Product.manual { toCar := cs.foldl Car.after x.toCar } := by
  induction cs generalizing x with
  | nil => rfl
  | cons k ks ih => exact ih { toCar := x.toCar.after k }

theorem getElem?_append_length {α : Type} (l : List α) (a : α) :
    (l ++ [a])[l.length]? = some a := by
  simp

theorem preset_exec (s : Stmt) (w : World) (hs : s.isPreset = true)
    (ht : s.target < w.builders.length) :
    ∃ b c msg, w.builders[s.target]? = some b ∧
      (∀ d, s.exec d w = some (none, d, ⟨w.memory.alloc (b.make c),
        w.builders.set s.target (b.pointTo w.memory), w.cout ++ msg⟩)) ∧
      (∀ t, s = Stmt.constructSportsCar t → c = ⟨true, false, true, 2⟩) ∧
      (∀ t, s = Stmt.constructSUV t → c = ⟨false, true, false, 5⟩) := by
  have hb : w.builders[s.target]? = some (w.builders[s.target]) := List.getElem?_eq_getElem ht
  cases s with
  | constructSportsCar t =>
    refine ⟨_, ⟨true, false, true, 2⟩, "Sports Car constructed\n", hb, ?_, fun _ _ => rfl, ?_⟩
    · intro d
      simp only [Stmt.target] at hb
      simp [Stmt.exec, Stmt.target, constructSportsCar_eq d w t _ hb]
    · intro t h
      cases h
  | constructSUV t =>
    refine ⟨_, ⟨false, true, false, 5⟩, "SUV car constructed\n", hb, ?_, ?_, fun _ _ => rfl⟩
    · intro d
      simp only [Stmt.target] at hb
      simp [Stmt.exec, Stmt.target, constructSUV_eq d w t _ hb]
    · intro t h
      cases h
  | call t c => simp [Stmt.isPreset] at hs
  | getProduct t => simp [Stmt.isPreset] at hs
  | setBuilder t => simp [Stmt.isPreset] at hs

theorem preset_world (w : World) (t : Nat) (b : IBuilder) (c : Car) (msg : String)
    (hb : w.builders[t]? = some b) :
    (World.mk (w.memory.alloc (b.make c)) (w.builders.set t (b.pointTo w.memory))
        (w.cout ++ msg)).inProgress t = some (b.make c) ∧
    ∀ q, t ≠ q →
      (World.mk (w.memory.alloc (b.make c)) (w.builders.set t (b.pointTo w.memory))
        (w.cout ++ msg)).builders[q]? = w.builders[q]? ∧
      ((w.inProgress q).isSome = true →
        (World.mk (w.memory.alloc (b.make c)) (w.builders.set t (b.pointTo w.memory))
          (w.cout ++ msg)).inProgress q = w.inProgress q) := by
  refine ⟨?_, ?_⟩
  · simp only [World.inProgress, getElem?_set_self_of_some _ hb]
    exact pointTo_inProgress b w.memory c
  · intro q hne
    have hq : (w.builders.set t (b.pointTo w.memory))[q]? = w.builders[q]? :=
      List.getElem?_set_ne hne
    refine ⟨hq, ?_⟩
    intro hsome
    simp only [World.inProgress, hq] at hsome ⊢
    cases hbq : w.builders[q]? with
    | none => rfl
    | some bq =>
      simp only [hbq] at hsome ⊢
      obtain ⟨x, hx⟩ := Option.isSome_iff_exists.1 hsome
      rw [hx]
      exact inProgress_alloc bq w.memory _ hx

theorem sports_then_getProduct (d : Director) (w : World) (p : Nat) (b : IBuilder)
    (hb : w.builders[p]? = some b) :
    ∃ w1 w2, d.constructSportsCar p w = some (d, w1) ∧
      w1.getProduct p = some (b.make ⟨true, false, true, 2⟩, w2) := by
  obtain ⟨b2, m2, hg, _, _⟩ :=
    getProduct_inProgress (pointTo_inProgress b w.memory ⟨true, false, true, 2⟩)
  exact ⟨_, _, constructSportsCar_eq d w p b hb,
    world_getProduct_eq (getElem?_set_self_of_some _ hb) hg⟩

theorem makeCar_spec (w : World) :
    ∃ car manual w', Application.makeCar w = some (car, manual, w') ∧
      car = ⟨true, false, true, 2⟩ ∧ manual.toCar = car := by
  obtain ⟨u1, u2, h1, h2⟩ := sports_then_getProduct Director.new w.newCarBuilder.2
    w.newCarBuilder.1 _ (getElem?_append_length w.builders _)
  obtain ⟨v1, v2, h3, h4⟩ := sports_then_getProduct Director.new u2.newCarManualBuilder.2
    u2.newCarManualBuilder.1 _ (getElem?_append_length u2.builders _)
  refine ⟨_, ⟨⟨true, false, true, 2⟩⟩, v2, ?_, rfl, rfl⟩
  simp only [IBuilder.make] at h2 h4
  simp only [Application.makeCar, h1, h2, h3, h4]

/-! ## Lemmas on the independence of the setters -/

theorem after_comm (c : Car) {k1 k2 : Call} (hk1 : k1.isSetter = true)
    (hk2 : k2.isSetter = true) (hne : k1.field? ≠ k2.field?) :
    (c.after k1).after k2 = (c.after k2).after k1 := by
  cases k1 <;> cases k2 <;>
    simp_all [Call.isSetter, Call.field?, Car.after, Car.setSeats, Car.setEngine,
      Car.setTripComputer, Car.setGPS]

theorem calls_cons (b : IBuilder) (m : Memory) (k : Call) (ks : List Call) :
    b.calls m (k :: ks) = (b.call m k).bind (fun r => r.1.calls r.2 ks) := by
  cases h : b.call m k <;> simp [IBuilder.calls, h]

theorem calls_pair (b : IBuilder) (m : Memory) (k1 k2 : Call) :
    b.calls m [k1, k2] = (b.call m k1).bind (fun r => r.1.call r.2 k2) := by
  cases h1 : b.call m k1 with
  | none => simp [IBuilder.calls, h1]
  | some r =>
    cases h2 : r.1.call r.2 k2 <;> simp [IBuilder.calls, h1, h2]

theorem carBuilder_setter (car : Option Nat) (m : Memory) {k : Call}
    (hk : k.isSetter = true) :
    (IBuilder.carBuilder ⟨car⟩).call m k =
      (m.callCar car (fun c => c.after k)).map (fun m' => (IBuilder.carBuilder ⟨car⟩, m')) := by
  cases k <;>
    simp_all [Call.isSetter, IBuilder.call, IBuilder.setSeats, IBuilder.setEngine,
      IBuilder.setTripComputer, IBuilder.setGPS, CarBuilder.setSeats, CarBuilder.setEngine,
      CarBuilder.setTripComputer, CarBuilder.setGPS, Car.after, Car.setSeats, Function.comp_def]

theorem carManualBuilder_setter (manual : Option Nat) (m : Memory) {k : Call}
    (hk : k.isSetter = true) :
    (IBuilder.carManualBuilder ⟨manual⟩).call m k =
      (m.callManual manual (fun x => { toCar := x.toCar.after k })).map
        (fun m' => (IBuilder.carManualBuilder ⟨manual⟩, m')) := by
  cases k <;>
    simp_all [Call.isSetter, IBuilder.call, IBuilder.setSeats, IBuilder.setEngine,
      IBuilder.setTripComputer, IBuilder.setGPS, CarManualBuilder.setSeats,
      CarManualBuilder.setEngine, CarManualBuilder.setTripComputer, CarManualBuilder.setGPS,
      Manual.setSeats, Manual.setEngine, Manual.setTripComputer, Manual.setGPS, Car.after,
      Car.setSeats, Function.comp_def]

theorem carBuilder_two_setters (car : Option Nat) (m : Memory) {k1 k2 : Call}
    (hk1 : k1.isSetter = true) (hk2 : k2.isSetter = true) :
    (IBuilder.carBuilder ⟨car⟩).calls m [k1, k2] =
      (m.callCar car (fun c => (c.after k1).after k2)).map
        (fun m' => (IBuilder.carBuilder ⟨car⟩, m')) := by
  rw [calls_pair, carBuilder_setter car m hk1]
  cases car with
  | none => rfl
  | some q =>
    cases h : m.cars[q]? with
    | none => simp [Memory.callCar, h]
    | some c =>
      have hlt := lt_of_getElem?_eq_some h
      simp [Memory.callCar, h, carBuilder_setter _ _ hk2, hlt]

theorem carManualBuilder_two_setters (manual : Option Nat) (m : Memory) {k1 k2 : Call}
    (hk1 : k1.isSetter = true) (hk2 : k2.isSetter = true) :
    (IBuilder.carManualBuilder ⟨manual⟩).calls m [k1, k2] =
      (m.callManual manual (fun x => { toCar := (x.toCar.after k1).after k2 })).map
        (fun m' => (IBuilder.carManualBuilder ⟨manual⟩, m')) := by
  rw [calls_pair, carManualBuilder_setter manual m hk1]
  cases manual with
  | none => rfl
  | some q =>
    cases h : m.manuals[q]? with
    | none => simp [Memory.callManual, h]
    | some c =>
      have hlt := lt_of_getElem?_eq_some h
      simp [Memory.callManual, h, carManualBuilder_setter _ _ hk2, hlt]

theorem calls_swap (b : IBuilder) (m : Memory) {k1 k2 : Call} (hk1 : k1.isSetter = true)
    (hk2 : k2.isSetter = true) (hne : k1.field? ≠ k2.field?) :
    b.calls m [k1, k2] = b.calls m [k2, k1] := by
  cases b with
  | carBuilder cb =>
    rw [carBuilder_two_setters cb.car m hk1 hk2, carBuilder_two_setters cb.car m hk2 hk1]
    simp only [after_comm _ hk1 hk2 hne]
  | carManualBuilder mb =>
    rw [carManualBuilder_two_setters mb.manual m hk1 hk2,
      carManualBuilder_two_setters mb.manual m hk2 hk1]
    simp only [after_comm _ hk1 hk2 hne]

theorem calls_perm {cs1 cs2 : List Call} (h : cs1.Perm cs2) :
    (∀ k ∈ cs1, k.isSetter = true) → cs1.Pairwise (fun a b => a.field? ≠ b.field?) →
    ∀ (b : IBuilder) (m : Memory), b.calls m cs1 = b.calls m cs2 := by
  induction h with
  | nil => intro _ _ b m; rfl
  | cons x _ ih =>
    intro hs hd b m
    rw [calls_cons, calls_cons]
    cases b.call m x with
    | none => rfl
    | some r =>
      exact ih (fun k hk => hs k (List.mem_cons_of_mem _ hk)) (List.pairwise_cons.1 hd).2 r.1 r.2
  | swap x y l =>
    intro hs hd b m
    have hy : y.isSetter = true := hs y (List.mem_cons_self _ _)
    have hx : x.isSetter = true := hs x (List.mem_cons_of_mem _ (List.mem_cons_self _ _))
    have hne : y.field? ≠ x.field? := (List.pairwise_cons.1 hd).1 x (List.mem_cons_self _ _)
    have hsw := calls_swap b m hy hx hne
    have e : ∀ (k1 k2 : Call), b.calls m (k1 :: k2 :: l) =
        (b.calls m [k1, k2]).bind (fun r => r.1.calls r.2 l) := by
      intro k1 k2
      rw [calls_cons, calls_pair]
      cases b.call m k1 with
      | none => rfl
      | some r => simp [calls_cons]
    rw [e y x, e x y, hsw]
  | trans h1 _ ih1 ih2 =>
    intro hs hd b m
    rw [ih1 hs hd b m]
    exact ih2 (fun k hk => hs k (h1.mem_iff.2 hk))
      ((h1.pairwise_iff (fun h => Ne.symm h)).1 hd) b m

theorem after_frame (c : Car) {k : Call} (hk : k.isSetter = true) :
    (k.field? ≠ some Field.seats → (c.after k).seats = c.seats) ∧
    (k.field? ≠ some Field.engine → (c.after k).engine = c.engine) ∧
    (k.field? ≠ some Field.tripComputer → (c.after k).tripComputer = c.tripComputer) ∧
    (k.field? ≠ some Field.gps → (c.after k).gps = c.gps) := by
  cases k <;>
    simp_all [Call.isSetter, Call.field?, Car.after, Car.setSeats, Car.setEngine,
      Car.setTripComputer, Car.setGPS]

theorem calls_reset_perm (b : IBuilder) (m : Memory) {p : Product} {cs preset : List Call}
    (hp : b.inProgress m = some p) (hs : ∀ k ∈ preset, k.isSetter = true)
    (hd : preset.Pairwise (fun a b => a.field? ≠ b.field?)) (hcs : cs.Perm preset) :
    ∃ b3 m3, b.calls m (Call.reset :: cs) = some (b3, m3) ∧
      b.calls m (Call.reset :: preset) = some (b3, m3) ∧
      (b3.inProgress m3).map Product.fields =
        some ((Call.reset :: preset).foldl Car.after p.fields) := by
  obtain ⟨b3, m3, h1, h2, _⟩ := calls_spec (Call.reset :: preset) hp
  refine ⟨b3, m3, ?_, h1, by rw [h2, Option.map_some', fields_afterAll]⟩
  rw [← h1, calls_cons, calls_cons]
  cases b.call m Call.reset with
  | none => rfl
  | some r =>
    exact calls_perm hcs (fun k hk => hs k (hcs.mem_iff.1 hk))
      ((hcs.pairwise_iff (fun h => Ne.symm h)).2 hd) r.1 r.2

/-! ## Lemmas on the output -/

theorem vcall_cout {w w' : World} {p : Nat}
    {f : IBuilder → Memory → Option (IBuilder × Memory)} (h : w.vcall p f = some w') :
    w'.cout = w.cout := by
  unfold World.vcall at h
  cases hb : w.builders[p]? with
  | none => simp [hb] at h
  | some b =>
    cases hf : f b w.memory with
    | none => simp [hb, hf] at h
    | some r =>
      simp only [hb, hf, Option.some.injEq] at h
      rw [← h]

theorem getProduct_cout {w w' : World} {p : Nat} {x : Product}
    (h : w.getProduct p = some (x, w')) : w'.cout = w.cout := by
  unfold World.getProduct at h
  cases hb : w.builders[p]? with
  | none => simp [hb] at h
  | some b =>
    cases hf : b.getProduct w.memory with
    | none => simp [hb, hf] at h
    | some r =>
      simp only [hb, hf, Option.some.injEq, Prod.mk.injEq] at h
      rw [← h.2]

theorem makeCar_cout (w : World) :
    ∃ w', Application.makeCar w =
        some (⟨true, false, true, 2⟩, ⟨⟨true, false, true, 2⟩⟩, w') ∧
      w'.cout = w.cout ++ "Sports Car constructed\nSports Car constructed\n" := by
  obtain ⟨u1, u2, h1, h2⟩ := sports_then_getProduct Director.new w.newCarBuilder.2
    w.newCarBuilder.1 _ (getElem?_append_length w.builders _)
  obtain ⟨v1, v2, h3, h4⟩ := sports_then_getProduct Director.new u2.newCarManualBuilder.2
    u2.newCarManualBuilder.1 _ (getElem?_append_length u2.builders _)
  have c1 : u1.cout = w.cout ++ "Sports Car constructed\n" := by
    rw [constructSportsCar_eq Director.new w.newCarBuilder.2 w.newCarBuilder.1 _
      (getElem?_append_length w.builders _)] at h1
    simp only [Option.some.injEq, Prod.mk.injEq, true_and] at h1
    rw [← h1]
    rfl
  have c2 : v1.cout = u2.cout ++ "Sports Car constructed\n" := by
    rw [constructSportsCar_eq Director.new u2.newCarManualBuilder.2 u2.newCarManualBuilder.1 _
      (getElem?_append_length u2.builders _)] at h3
    simp only [Option.some.injEq, Prod.mk.injEq, true_and] at h3
    rw [← h3]
    rfl
  refine ⟨v2, ?_, ?_⟩
  · simp only [IBuilder.make] at h2 h4
    simp only [Application.makeCar, h1, h2, h3, h4]
  · rw [getProduct_cout h4, c2, getProduct_cout h2, c1, String.append_assoc]
    rfl

/-! ## The claims -/

/-- C1 (last write wins). Take a `CarBuilder` or a `CarManualBuilder` that owns an in-progress
product, and any finite sequence `cs` of setter calls. The calls all succeed, the following
`getProduct` succeeds, and for each field the returned product holds exactly the argument of
the last call of that field's setter in `cs` (a seat count in `0..255` is stored as it is). -/
theorem C1_last_write_wins (b : IBuilder) (m : Memory) (cs : List Call)
    (hvalid : (b.inProgress m).isSome = true) (hsetters : ∀ k ∈ cs, k.isSetter = true) :
    ∃ b1 m1 product b2 m2,
      b.calls m cs = some (b1, m1) ∧ b1.getProduct m1 = some (product, b2, m2) ∧
      (∀ pre post v, cs = pre ++ Call.setSeats v :: post → (∀ n, Call.setSeats n ∉ post) →
        v < 256 → product.fields.seats = v) ∧
      (∀ pre post v, cs = pre ++ Call.setEngine v :: post → (∀ x, Call.setEngine x ∉ post) →
        product.fields.engine = v) ∧
      (∀ pre post v, cs = pre ++ Call.setTripComputer v :: post →
        (∀ x, Call.setTripComputer x ∉ post) → product.fields.tripComputer = v) ∧
      (∀ pre post v, cs = pre ++ Call.setGPS v :: post → (∀ x, Call.setGPS x ∉ post) →
        product.fields.gps = v) := by
  obtain ⟨p, hp⟩ := Option.isSome_iff_exists.1 hvalid
  obtain ⟨b1, m1, h1, h2, _⟩ := calls_spec cs hp
  obtain ⟨b2, m2, h3, _, _⟩ := getProduct_inProgress h2
  refine ⟨b1, m1, _, b2, m2, h1, h3, ?_, ?_, ?_, ?_⟩
  · intro pre post v hcs hpost hv
    have hs : ∀ k ∈ post, k.isSetter = true := fun k hk => hsetters k (by simp [hcs, hk])
    rw [fields_afterAll, hcs, List.foldl_append, List.foldl_cons, seats_foldl post _ hs hpost]
    simp [Car.after, Car.setSeats, uint8_t, Nat.mod_eq_of_lt hv]
  · intro pre post v hcs hpost
    have hs : ∀ k ∈ post, k.isSetter = true := fun k hk => hsetters k (by simp [hcs, hk])
    rw [fields_afterAll, hcs, List.foldl_append, List.foldl_cons, engine_foldl post _ hs hpost]
    rfl
  · intro pre post v hcs hpost
    have hs : ∀ k ∈ post, k.isSetter = true := fun k hk => hsetters k (by simp [hcs, hk])
    rw [fields_afterAll, hcs, List.foldl_append, List.foldl_cons,
      tripComputer_foldl post _ hs hpost]
    rfl
  · intro pre post v hcs hpost
    have hs : ∀ k ∈ post, k.isSetter = true := fun k hk => hsetters k (by simp [hcs, hk])
    rw [fields_afterAll, hcs, List.foldl_append, List.foldl_cons, gps_foldl post _ hs hpost]
    rfl

/-- Witness of C1 on a `CarManualBuilder` whose in-progress manual is new:
after `setSeats(4); setGPS(true); setSeats(7); setEngine(true)` the manual retrieved has
seats 7, gps true and engine true. -/
theorem C1_last_write_wins_witness :
    ((IBuilder.carManualBuilder ⟨some 0⟩).inProgress ⟨[], [Manual.new]⟩).isSome = true ∧
    (∀ k ∈ [Call.setSeats 4, Call.setGPS true, Call.setSeats 7, Call.setEngine true],
      k.isSetter = true) ∧
    ∃ b1 m1 product b2 m2,
      (IBuilder.carManualBuilder ⟨some 0⟩).calls ⟨[], [Manual.new]⟩
        [Call.setSeats 4, Call.setGPS true, Call.setSeats 7, Call.setEngine true]
        = some (b1, m1) ∧
      b1.getProduct m1 = some (product, b2, m2) ∧
      product.fields.seats = 7 ∧ product.fields.engine = true ∧ product.fields.gps = true := by
  refine ⟨by decide, by decide, ?_⟩
  obtain ⟨b1, m1, product, b2, m2, h1, h2, hs, he, _, hg⟩ :=
    C1_last_write_wins (IBuilder.carManualBuilder ⟨some 0⟩) ⟨[], [Manual.new]⟩
      [Call.setSeats 4, Call.setGPS true, Call.setSeats 7, Call.setEngine true]
      (by decide) (by decide)
  exact ⟨b1, m1, product, b2, m2, h1, h2,
    hs [Call.setSeats 4, Call.setGPS true] [Call.setEngine true] 7 rfl (by simp) (by decide),
    he [Call.setSeats 4, Call.setGPS true, Call.setSeats 7] [] true rfl (by simp),
    hg [Call.setSeats 4] [Call.setSeats 7, Call.setEngine true] true rfl (by simp)⟩

/-- C2 (auto-reset). For a `CarBuilder` or `CarManualBuilder` that owns an in-progress
product (whether new or already configured), `getProduct` succeeds, returns that product, and
leaves the builder with the in-progress product of a freshly constructed builder of its class;
a second `getProduct` right after returns the default product (seats 0, engine, gps and
trip computer false); and every sequence of later operations retrieves the same products as
it does on a freshly constructed builder. -/
theorem C2_getProduct_resets (b : IBuilder) (m : Memory)
    (hvalid : (b.inProgress m).isSome = true) :
    ∃ product b1 m1,
      b.getProduct m = some (product, b1, m1) ∧ b.inProgress m = some product ∧
      (∀ m0, b1.inProgress m1 = (b.construct m0).1.inProgress (b.construct m0).2) ∧
      (∃ second b2 m2, b1.getProduct m1 = some (second, b2, m2) ∧
        second.fields = { engine := false, gps := false, tripComputer := false, seats := 0 }) ∧
      (∀ m0 os, ∃ rs, (b1.run m1 os).map Prod.fst = some rs ∧
        ((b.construct m0).1.run (b.construct m0).2 os).map Prod.fst = some rs) := by
  obtain ⟨p, hp⟩ := Option.isSome_iff_exists.1 hvalid
  obtain ⟨b1, m1, h1, h2, _⟩ := getProduct_inProgress hp
  rw [← fresh_eq_of_inProgress hp] at h2
  obtain ⟨b2, m2, h3, _, _⟩ := getProduct_inProgress h2
  refine ⟨p, b1, m1, h1, hp, ?_, ⟨_, b2, m2, h3, fresh_fields b⟩, ?_⟩
  · intro m0
    rw [h2, (construct_inProgress b m0).1]
  · intro m0 os
    exact run_products_eq os h2 (construct_inProgress b m0).1

/-- Witness of C2 on a `CarBuilder` whose in-progress car has been configured. -/
theorem C2_getProduct_resets_witness :
    ((IBuilder.carBuilder ⟨some 0⟩).inProgress ⟨[⟨true, false, true, 2⟩], []⟩).isSome = true ∧
    ∃ product b1 m1,
      (IBuilder.carBuilder ⟨some 0⟩).getProduct ⟨[⟨true, false, true, 2⟩], []⟩
        = some (product, b1, m1) ∧
      ∃ second b2 m2, b1.getProduct m1 = some (second, b2, m2) ∧
        second.fields = { engine := false, gps := false, tripComputer := false, seats := 0 } := by
  refine ⟨by decide, ?_⟩
  obtain ⟨product, b1, m1, h1, _, _, h2, _⟩ :=
    C2_getProduct_resets (IBuilder.carBuilder ⟨some 0⟩) ⟨[⟨true, false, true, 2⟩], []⟩ (by decide)
  exact ⟨product, b1, m1, h1, h2⟩

/-- C3 (sports preset). Whatever the state of the program and of the builder object that
`builder` designates (a `CarBuilder` or a `CarManualBuilder`, new, configured by setters or
by a preset, or even with an unusable pointer), `constructSportsCar(builder)` succeeds and
the following `builder->getProduct()` returns a product with seats 2, engine true, trip
computer true and gps false: a `Car` from a `CarBuilder`, a `Manual` from a
`CarManualBuilder`. -/
theorem C3_sports_preset (d : Director) (w : World) (builder : Nat) (b : IBuilder)
    (hb : w.builders[builder]? = some b) :
    ∃ d1 w1 product w2,
      d.constructSportsCar builder w = some (d1, w1) ∧
      w1.getProduct builder = some (product, w2) ∧
      product.fields = { engine := true, gps := false, tripComputer := true, seats := 2 } ∧
      (∀ cb, b = IBuilder.carBuilder cb →
        product = Product.car { engine := true, gps := false, tripComputer := true, seats := 2 }) ∧
      (∀ mb, b = IBuilder.carManualBuilder mb → product = Product.manual
        { toCar := { engine := true, gps := false, tripComputer := true, seats := 2 } }) := by
  obtain ⟨b2, m2, hg, _, _⟩ :=
    getProduct_inProgress (pointTo_inProgress b w.memory ⟨true, false, true, 2⟩)
  refine ⟨d, _, _, _, constructSportsCar_eq d w builder b hb,
    world_getProduct_eq (getElem?_set_self_of_some _ hb) hg, make_fields b _, ?_, ?_⟩
  · rintro cb rfl
    rfl
  · rintro mb rfl
    rfl

/-- Witness of C3: a `CarBuilder` that holds the utility configuration. -/
theorem C3_sports_preset_witness :
    (World.mk ⟨[⟨false, true, false, 5⟩], []⟩ [IBuilder.carBuilder ⟨some 0⟩] "").builders[0]?
      = some (IBuilder.carBuilder ⟨some 0⟩) ∧
    ∃ d1 w1 product w2,
      (Director.mk none).constructSportsCar 0
        (World.mk ⟨[⟨false, true, false, 5⟩], []⟩ [IBuilder.carBuilder ⟨some 0⟩] "")
        = some (d1, w1) ∧
      w1.getProduct 0 = some (product, w2) ∧
      product = Product.car { engine := true, gps := false, tripComputer := true, seats := 2 } := by
  refine ⟨rfl, ?_⟩
  obtain ⟨d1, w1, product, w2, h1, h2, _, h3, _⟩ :=
    C3_sports_preset (Director.mk none)
      (World.mk ⟨[⟨false, true, false, 5⟩], []⟩ [IBuilder.carBuilder ⟨some 0⟩] "") 0
      (IBuilder.carBuilder ⟨some 0⟩) rfl
  exact ⟨d1, w1, product, w2, h1, h2, h3 _ rfl⟩

/-- C4 (utility preset). Whatever the state of the program and of the builder object that
`builder` designates (a `CarBuilder` or a `CarManualBuilder`, new, configured by setters or
by the sports preset, or even with an unusable pointer), `constructSUV(builder)` succeeds and
the following `builder->getProduct()` returns a product with seats 5, engine false, trip
computer false and gps true: a `Car` from a `CarBuilder`, a `Manual` from a
`CarManualBuilder`. -/
theorem C4_utility_preset (d : Director) (w : World) (builder : Nat) (b : IBuilder)
    (hb : w.builders[builder]? = some b) :
    ∃ d1 w1 product w2,
      d.constructSUV builder w = some (d1, w1) ∧
      w1.getProduct builder = some (product, w2) ∧
      product.fields = { engine := false, gps := true, tripComputer := false, seats := 5 } ∧
      (∀ cb, b = IBuilder.carBuilder cb →
        product = Product.car { engine := false, gps := true, tripComputer := false, seats := 5 }) ∧
      (∀ mb, b = IBuilder.carManualBuilder mb → product = Product.manual
        { toCar := { engine := false, gps := true, tripComputer := false, seats := 5 } }) := by
  obtain ⟨b2, m2, hg, _, _⟩ :=
    getProduct_inProgress (pointTo_inProgress b w.memory ⟨false, true, false, 5⟩)
  refine ⟨d, _, _, _, constructSUV_eq d w builder b hb,
    world_getProduct_eq (getElem?_set_self_of_some _ hb) hg, make_fields b _, ?_, ?_⟩
  · rintro cb rfl
    rfl
  · rintro mb rfl
    rfl

/-- Witness of C4: a `CarManualBuilder` that holds the sports configuration. -/
theorem C4_utility_preset_witness :
    (World.mk ⟨[], [⟨⟨true, false, true, 2⟩⟩]⟩ [IBuilder.carManualBuilder ⟨some 0⟩]
      "Sports Car constructed\n").builders[0]? = some (IBuilder.carManualBuilder ⟨some 0⟩) ∧
    ∃ d1 w1 product w2,
      (Director.mk none).constructSUV 0
        (World.mk ⟨[], [⟨⟨true, false, true, 2⟩⟩]⟩ [IBuilder.carManualBuilder ⟨some 0⟩]
          "Sports Car constructed\n") = some (d1, w1) ∧
      w1.getProduct 0 = some (product, w2) ∧
      product = Product.manual
        { toCar := { engine := false, gps := true, tripComputer := false, seats := 5 } } := by
  refine ⟨rfl, ?_⟩
  obtain ⟨d1, w1, product, w2, h1, h2, _, _, h3⟩ :=
    C4_utility_preset (Director.mk none)
      (World.mk ⟨[], [⟨⟨true, false, true, 2⟩⟩]⟩ [IBuilder.carManualBuilder ⟨some 0⟩]
        "Sports Car constructed\n") 0 (IBuilder.carManualBuilder ⟨some 0⟩) rfl
  exact ⟨d1, w1, product, w2, h1, h2, h3 _ rfl⟩

/-- C5 (retrieval returns an independent copy). Let `builder` designate a `CarBuilder` or
`CarManualBuilder` whose pointer member holds the address `a` of its in-progress product `x`.
`getProduct` returns the value `x`, copied out of the object at `a`, and whatever the client
does to that builder afterwards (setters, `reset`, director presets, further `getProduct`
calls, in any number and order), every statement succeeds, the product retrieved first is
still `x` at the end of the run, the object at `a` it was copied from still holds `x`, and
the builder's pointer designates another object: no later operation writes to storage the
product handed out could share. -/
theorem C5_retrieved_product_is_independent (d : Director) (w : World) (builder : Nat)
    (b : IBuilder) (a : Nat) (x : Product) (stmts : List Stmt)
    (hb : w.builders[builder]? = some b) (ha : b.pointer = some a)
    (hx : b.objectAt w.memory a = some x) (ht : ∀ s ∈ stmts, s.target = builder) :
    ∃ w1, w.getProduct builder = some (x, w1) ∧
      ∃ rs d2 w2, execAll d w1 stmts = some (rs, d2, w2) ∧
        execAll d w (Stmt.getProduct builder :: stmts) = some (x :: rs, d2, w2) ∧
        b.objectAt w2.memory a = some x ∧
        ∃ b2 q y, w2.builders[builder]? = some b2 ∧ b2.pointer = some q ∧
          b2.objectAt w2.memory q = some y ∧ q ≠ a := by
  obtain ⟨b', m', q', h1, _, h2, h3, h4, _, h5, h6⟩ := getProduct_spec ha hx
  have hne : q' ≠ a := by
    intro e
    rw [e, hx] at h5
    cases h5
  have hk : World.KeepsApart ⟨m', w.builders.set builder b', w.cout⟩ builder b a x :=
    ⟨b', q', _, getElem?_set_self_of_some _ hb, h4, h2, h3, hne, h6 a x hx⟩
  obtain ⟨rs, d2, w2, h7, b2, q, y, h8, h9, h10, h11, h12, h13⟩ :=
    execAll_keepsApart stmts d ht hk
  have hg := world_getProduct_eq hb h1
  exact ⟨_, hg, rs, d2, w2, h7, by simp [execAll, Stmt.exec, hg, h7], h13, b2, q, y, h8, h10,
    h11, h12⟩

/-- Witness of C5: a `CarBuilder` holding the sports configuration at address 0; after the
retrieval the client sets seats, applies the utility preset, retrieves and resets. -/
theorem C5_retrieved_product_is_independent_witness :
    (World.mk ⟨[⟨true, false, true, 2⟩], []⟩ [IBuilder.carBuilder ⟨some 0⟩] "").builders[0]?
      = some (IBuilder.carBuilder ⟨some 0⟩) ∧
    (IBuilder.carBuilder ⟨some 0⟩).pointer = some 0 ∧
    (IBuilder.carBuilder ⟨some 0⟩).objectAt ⟨[⟨true, false, true, 2⟩], []⟩ 0
      = some (Product.car ⟨true, false, true, 2⟩) ∧
    (∀ s ∈ [Stmt.call 0 (Call.setSeats 9), Stmt.constructSUV 0, Stmt.getProduct 0,
      Stmt.call 0 Call.reset], s.target = 0) ∧
    ∃ w1, (World.mk ⟨[⟨true, false, true, 2⟩], []⟩ [IBuilder.carBuilder ⟨some 0⟩] "").getProduct 0
        = some (Product.car ⟨true, false, true, 2⟩, w1) ∧
      ∃ rs d2 w2, execAll (Director.mk none) w1
          [Stmt.call 0 (Call.setSeats 9), Stmt.constructSUV 0, Stmt.getProduct 0,
            Stmt.call 0 Call.reset] = some (rs, d2, w2) ∧
        (IBuilder.carBuilder ⟨some 0⟩).objectAt w2.memory 0
          = some (Product.car ⟨true, false, true, 2⟩) := by
  refine ⟨rfl, rfl, rfl, by decide, ?_⟩
  obtain ⟨w1, h1, rs, d2, w2, h2, _, h3, _⟩ :=
    C5_retrieved_product_is_independent (Director.mk none)
      (World.mk ⟨[⟨true, false, true, 2⟩], []⟩ [IBuilder.carBuilder ⟨some 0⟩] "") 0
      (IBuilder.carBuilder ⟨some 0⟩) 0 (Product.car ⟨true, false, true, 2⟩)
      [Stmt.call 0 (Call.setSeats 9), Stmt.constructSUV 0, Stmt.getProduct 0,
        Stmt.call 0 Call.reset] rfl rfl rfl (by decide)
  exact ⟨w1, h1, rs, d2, w2, h2, h3⟩

/-- C6 (builder equivalence). Drive a freshly constructed `CarBuilder` and a freshly
constructed `CarManualBuilder` (each in any store) through the same sequence `cs` of
interface calls (`reset` and the four setters, any arguments) and retrieve: both runs
succeed, and the `Manual` has the same seats, engine, gps and trip computer as the `Car`.
The same holds when a director applies the sports preset to both builders, and when it
applies the utility preset to both; and `Application::makeCar` retrieves a `Car` and a
`Manual` with equal fields. -/
theorem C6_builder_equivalence (cs : List Call) (m1 m2 : Memory) (d : Director)
    (w1 w2 : World) :
    (∃ b1 n1 car b1' n1' b2 n2 manual b2' n2',
      (CarBuilder.newI m1).1.calls (CarBuilder.newI m1).2 cs = some (b1, n1) ∧
      b1.getProduct n1 = some (Product.car car, b1', n1') ∧
      (CarManualBuilder.newI m2).1.calls (CarManualBuilder.newI m2).2 cs = some (b2, n2) ∧
      b2.getProduct n2 = some (Product.manual manual, b2', n2') ∧
      manual.seats = car.seats ∧ manual.engine = car.engine ∧ manual.gps = car.gps ∧
      manual.tripComputer = car.tripComputer) ∧
    (∃ d1 u1 car v1 d2 u2 manual v2,
      d.constructSportsCar w1.newCarBuilder.1 w1.newCarBuilder.2 = some (d1, u1) ∧
      u1.getProduct w1.newCarBuilder.1 = some (Product.car car, v1) ∧
      d.constructSportsCar w2.newCarManualBuilder.1 w2.newCarManualBuilder.2 = some (d2, u2) ∧
      u2.getProduct w2.newCarManualBuilder.1 = some (Product.manual manual, v2) ∧
      manual.seats = car.seats ∧ manual.engine = car.engine ∧ manual.gps = car.gps ∧
      manual.tripComputer = car.tripComputer) ∧
    (∃ d1 u1 car v1 d2 u2 manual v2,
      d.constructSUV w1.newCarBuilder.1 w1.newCarBuilder.2 = some (d1, u1) ∧
      u1.getProduct w1.newCarBuilder.1 = some (Product.car car, v1) ∧
      d.constructSUV w2.newCarManualBuilder.1 w2.newCarManualBuilder.2 = some (d2, u2) ∧
      u2.getProduct w2.newCarManualBuilder.1 = some (Product.manual manual, v2) ∧
      manual.seats = car.seats ∧ manual.engine = car.engine ∧ manual.gps = car.gps ∧
      manual.tripComputer = car.tripComputer) ∧
    (∃ car manual w', Application.makeCar w1 = some (car, manual, w') ∧
      manual.seats = car.seats ∧ manual.engine = car.engine ∧ manual.gps = car.gps ∧
      manual.tripComputer = car.tripComputer) := by
  have hc : ∀ w : World, w.newCarBuilder.2.builders[w.newCarBuilder.1]?
      = some (IBuilder.carBuilder ⟨some w.memory.cars.length⟩) :=
    fun w => getElem?_append_length w.builders _
  have hm : ∀ w : World, w.newCarManualBuilder.2.builders[w.newCarManualBuilder.1]?
      = some (IBuilder.carManualBuilder ⟨some w.memory.manuals.length⟩) :=
    fun w => getElem?_append_length w.builders _
  refine ⟨?_, ?_, ?_, ?_⟩
  · obtain ⟨b1, n1, h1, h2, _⟩ :=
      calls_spec cs (construct_inProgress (.carBuilder ⟨none⟩) m1).1
    obtain ⟨b1', n1', h3, _, _⟩ := getProduct_inProgress h2
    obtain ⟨b2, n2, h4, h5, _⟩ :=
      calls_spec cs (construct_inProgress (.carManualBuilder ⟨none⟩) m2).1
    obtain ⟨b2', n2', h6, _, _⟩ := getProduct_inProgress h5
    simp only [IBuilder.fresh, afterAll_car] at h3
    simp only [IBuilder.fresh, afterAll_manual] at h6
    exact ⟨b1, n1, _, b1', n1', b2, n2, _, b2', n2', h1, h3, h4, h6, rfl, rfl, rfl, rfl⟩
  · obtain ⟨b1, n1, g1, _, _⟩ := getProduct_inProgress
      (pointTo_inProgress (.carBuilder ⟨some w1.memory.cars.length⟩) w1.newCarBuilder.2.memory
        ⟨true, false, true, 2⟩)
    obtain ⟨b2, n2, g2, _, _⟩ := getProduct_inProgress
      (pointTo_inProgress (.carManualBuilder ⟨some w2.memory.manuals.length⟩)
        w2.newCarManualBuilder.2.memory ⟨true, false, true, 2⟩)
    exact ⟨d, _, _, _, d, _, _, _, constructSportsCar_eq d _ _ _ (hc w1),
      world_getProduct_eq (getElem?_set_self_of_some _ (hc w1)) g1,
      constructSportsCar_eq d _ _ _ (hm w2),
      world_getProduct_eq (getElem?_set_self_of_some _ (hm w2)) g2, rfl, rfl, rfl, rfl⟩
  · obtain ⟨b1, n1, g1, _, _⟩ := getProduct_inProgress
      (pointTo_inProgress (.carBuilder ⟨some w1.memory.cars.length⟩) w1.newCarBuilder.2.memory
        ⟨false, true, false, 5⟩)
    obtain ⟨b2, n2, g2, _, _⟩ := getProduct_inProgress
      (pointTo_inProgress (.carManualBuilder ⟨some w2.memory.manuals.length⟩)
        w2.newCarManualBuilder.2.memory ⟨false, true, false, 5⟩)
    exact ⟨d, _, _, _, d, _, _, _, constructSUV_eq d _ _ _ (hc w1),
      world_getProduct_eq (getElem?_set_self_of_some _ (hc w1)) g1,
      constructSUV_eq d _ _ _ (hm w2),
      world_getProduct_eq (getElem?_set_self_of_some _ (hm w2)) g2, rfl, rfl, rfl, rfl⟩
  · obtain ⟨car, manual, w', h1, _, h3⟩ := makeCar_spec w1
    exact ⟨car, manual, w', h1, by rw [← h3], by rw [← h3], by rw [← h3], by rw [← h3]⟩

/-- C7 (construction and reset). A freshly constructed `CarBuilder` holds the empty car and a
freshly constructed `CarManualBuilder` the empty manual (seats 0, engine, gps and trip
computer false). From every builder state whatever, `reset()` succeeds and leaves the
in-progress product of a freshly constructed builder of the same class, so that every sequence
of later operations retrieves what it retrieves on a fresh builder; a second `reset()` leaves
the same in-progress product again. -/
theorem C7_construction_and_reset (b : IBuilder) (m : Memory) :
    (∀ m0, (CarBuilder.newI m0).1.inProgress (CarBuilder.newI m0).2 =
      some (Product.car { engine := false, gps := false, tripComputer := false, seats := 0 })) ∧
    (∀ m0, (CarManualBuilder.newI m0).1.inProgress (CarManualBuilder.newI m0).2 =
      some (Product.manual
        { toCar := { engine := false, gps := false, tripComputer := false, seats := 0 } })) ∧
    ∃ b1 m1, b.reset m = some (b1, m1) ∧
      (b1.inProgress m1).map Product.fields =
        some { engine := false, gps := false, tripComputer := false, seats := 0 } ∧
      (∀ m0, b1.inProgress m1 = (b.construct m0).1.inProgress (b.construct m0).2) ∧
      (∀ m0 os, ∃ rs, (b1.run m1 os).map Prod.fst = some rs ∧
        ((b.construct m0).1.run (b.construct m0).2 os).map Prod.fst = some rs) ∧
      ∃ b2 m2, b1.reset m1 = some (b2, m2) ∧ b2.inProgress m2 = b1.inProgress m1 ∧
        ∀ os, ∃ rs, (b2.run m2 os).map Prod.fst = some rs ∧
          (b1.run m1 os).map Prod.fst = some rs := by
  refine ⟨fun m0 => (construct_inProgress (.carBuilder ⟨none⟩) m0).1,
    fun m0 => (construct_inProgress (.carManualBuilder ⟨none⟩) m0).1, ?_⟩
  obtain ⟨b1, m1, h1, h2, h3⟩ := reset_inProgress b m
  obtain ⟨b2, m2, h4, h5, _⟩ := reset_inProgress b1 m1
  rw [h3] at h5
  refine ⟨b1, m1, h1, by rw [h2]; simp [fresh_fields], ?_, ?_, b2, m2, h4, by rw [h5, h2], ?_⟩
  · intro m0
    rw [h2, (construct_inProgress b m0).1]
  · intro m0 os
    exact run_products_eq os h2 (construct_inProgress b m0).1
  · intro os
    exact run_products_eq os h5 h2

/-- C8 (the director retains no state between calls). Let a client run any sequence of
director calls (`setBuilder`, `constructSportsCar`, `constructSUV`, on any builders, in any
interleaving), the presets being given pointers to builder objects. Every call succeeds and
creates no builder. The resulting state of the builders and of the store is the same whatever
the director's stored reference was at the start (the presets do not read it); without a
`setBuilder` among the calls the director is unchanged at the end (the presets do not change
it), and otherwise its stored reference is the argument of the last `setBuilder`. A builder
that no preset of the sequence was applied to, the stored one included, is the same object
with the same in-progress product at the end; and a builder holds the sports (the utility)
configuration at the end when the last preset applied to it was the sports (the utility)
preset. -/
theorem C8_director_retains_no_state (stmts : List Stmt) (d : Director) (w : World)
    (hdir : ∀ s ∈ stmts, s.isDirectorCall = true)
    (hptr : ∀ s ∈ stmts, s.isPreset = true → s.target < w.builders.length) :
    ∃ d' w', execAll d w stmts = some ([], d', w') ∧
      w'.builders.length = w.builders.length ∧
      (∀ d2, ∃ d2', execAll d2 w stmts = some ([], d2', w')) ∧
      ((∀ q, Stmt.setBuilder q ∉ stmts) → d' = d) ∧
      (∀ pre post q, stmts = pre ++ Stmt.setBuilder q :: post →
        (∀ q2, Stmt.setBuilder q2 ∉ post) → d'.builder = some q) ∧
      (∀ q, (∀ s ∈ stmts, s.isPreset = true → s.target ≠ q) →
        w'.builders[q]? = w.builders[q]? ∧
        ((w.inProgress q).isSome = true → w'.inProgress q = w.inProgress q)) ∧
      (∀ pre post q, stmts = pre ++ Stmt.constructSportsCar q :: post →
        (∀ s ∈ post, s.isPreset = true → s.target ≠ q) →
        (w'.inProgress q).map Product.fields =
          some { engine := true, gps := false, tripComputer := true, seats := 2 }) ∧
      (∀ pre post q, stmts = pre ++ Stmt.constructSUV q :: post →
        (∀ s ∈ post, s.isPreset = true → s.target ≠ q) →
        (w'.inProgress q).map Product.fields =
          some { engine := false, gps := true, tripComputer := false, seats := 5 }) := by
  induction stmts generalizing d w with
  | nil =>
    refine ⟨d, w, rfl, rfl, fun d2 => ⟨d2, rfl⟩, fun _ => rfl, ?_,
      fun q _ => ⟨rfl, fun _ => rfl⟩, ?_, ?_⟩
    all_goals
      intro pre post q h
      simp at h
  | cons s ss ih =>
    have hdir' : ∀ s' ∈ ss, s'.isDirectorCall = true :=
      fun s' h => hdir s' (List.mem_cons_of_mem _ h)
    by_cases hp : s.isPreset = true
    · obtain ⟨b, c, msg, hb, hex, hsp, hsuv⟩ :=
        preset_exec s w hp (hptr s (List.mem_cons_self _ _) hp)
      obtain ⟨htgt, hframe⟩ := preset_world w s.target b c msg hb
      have hptr' : ∀ s' ∈ ss, s'.isPreset = true →
          s'.target < (World.mk (w.memory.alloc (b.make c))
            (w.builders.set s.target (b.pointTo w.memory)) (w.cout ++ msg)).builders.length := by
        intro s' h h'
        simpa using hptr s' (List.mem_cons_of_mem _ h) h'
      obtain ⟨d', w', h1, hlen, hnr, hnc, hsb, hfr, hs, hu⟩ := ih d _ hdir' hptr'
      have hnosb : ∀ q, s ≠ Stmt.setBuilder q := by
        intro q e
        rw [e] at hp
        simp [Stmt.isPreset] at hp
      have hlast : ∀ q, s.target = q → (∀ s' ∈ ss, s'.isPreset = true → s'.target ≠ q) →
          (w'.inProgress q).map Product.fields = some c := by
        intro q e hpost
        subst e
        rw [(hfr _ hpost).2 (by simp [htgt]), htgt]
        simp [make_fields]
      refine ⟨d', w', by simp [execAll, hex d, h1], by simpa using hlen, ?_, ?_, ?_, ?_, ?_, ?_⟩
      · intro d2
        obtain ⟨d2', h2⟩ := hnr d2
        exact ⟨d2', by simp [execAll, hex d2, h2]⟩
      · intro h
        exact hnc (fun q hq => h q (List.mem_cons_of_mem _ hq))
      · intro pre post q h hpost
        cases pre with
        | nil =>
          simp only [List.nil_append, List.cons.injEq] at h
          exact absurd h.1 (hnosb q)
        | cons s' pre' =>
          simp only [List.cons_append, List.cons.injEq] at h
          exact hsb pre' post q h.2 hpost
      · intro q hq
        have hne : s.target ≠ q := hq s (List.mem_cons_self _ _) hp
        obtain ⟨f1, f2⟩ := hframe q hne
        obtain ⟨g1, g2⟩ := hfr q (fun s' h => hq s' (List.mem_cons_of_mem _ h))
        refine ⟨g1.trans f1, fun hsome => ?_⟩
        rw [g2 (by rw [f2 hsome]; exact hsome), f2 hsome]
      · intro pre post q h hpost
        cases pre with
        | nil =>
          simp only [List.nil_append, List.cons.injEq] at h
          obtain ⟨h3, h4⟩ := h
          subst h4
          rw [hlast q (by rw [h3]; rfl) hpost, hsp q h3]
        | cons s' pre' =>
          simp only [List.cons_append, List.cons.injEq] at h
          exact hs pre' post q h.2 hpost
      · intro pre post q h hpost
        cases pre with
        | nil =>
          simp only [List.nil_append, List.cons.injEq] at h
          obtain ⟨h3, h4⟩ := h
          subst h4
          rw [hlast q (by rw [h3]; rfl) hpost, hsuv q h3]
        | cons s' pre' =>
          simp only [List.cons_append, List.cons.injEq] at h
          exact hu pre' post q h.2 hpost
    · have hd := hdir s (List.mem_cons_self _ _)
      cases s with
      | call t c => simp [Stmt.isDirectorCall] at hd
      | getProduct t => simp [Stmt.isDirectorCall] at hd
      | constructSportsCar t => simp [Stmt.isPreset] at hp
      | constructSUV t => simp [Stmt.isPreset] at hp
      | setBuilder t =>
        have hptr' : ∀ s' ∈ ss, s'.isPreset = true → s'.target < w.builders.length :=
          fun s' h => hptr s' (List.mem_cons_of_mem _ h)
        obtain ⟨d', w', h1, hlen, hnr, hnc, hsb, hfr, hs, hu⟩ :=
          ih (d.setBuilder t) w hdir' hptr'
        refine ⟨d', w', by simp [execAll, Stmt.exec, h1], hlen, ?_, ?_, ?_, ?_, ?_, ?_⟩
        · intro d2
          obtain ⟨d2', h2⟩ := hnr (d2.setBuilder t)
          exact ⟨d2', by simp [execAll, Stmt.exec, h2]⟩
        · intro h
          exact absurd (List.mem_cons_self _ _) (h t)
        · intro pre post q h hpost
          cases pre with
          | nil =>
            simp only [List.nil_append, List.cons.injEq, Stmt.setBuilder.injEq] at h
            obtain ⟨h3, h4⟩ := h
            subst h3 h4
            rw [hnc hpost]
            rfl
          | cons s' pre' =>
            simp only [List.cons_append, List.cons.injEq] at h
            exact hsb pre' post q h.2 hpost
        · intro q hq
          exact hfr q (fun s' h => hq s' (List.mem_cons_of_mem _ h))
        · intro pre post q h hpost
          cases pre with
          | nil => simp at h
          | cons s' pre' =>
            simp only [List.cons_append, List.cons.injEq] at h
            exact hs pre' post q h.2 hpost
        · intro pre post q h hpost
          cases pre with
          | nil => simp at h
          | cons s' pre' =>
            simp only [List.cons_append, List.cons.injEq] at h
            exact hu pre' post q h.2 hpost

/-- Witness of C8: a director with a `CarBuilder` (pointer 0) and a `CarManualBuilder`
(pointer 1); after `setBuilder(1)`, sports on 0, utility on 1, utility on 0, sports on 1, the
car builder holds the utility configuration, the manual builder the sports configuration,
and the stored reference is 1. -/
theorem C8_director_retains_no_state_witness :
    (∀ s ∈ [Stmt.setBuilder 1, Stmt.constructSportsCar 0, Stmt.constructSUV 1,
      Stmt.constructSUV 0, Stmt.constructSportsCar 1], s.isDirectorCall = true) ∧
    (∀ s ∈ [Stmt.setBuilder 1, Stmt.constructSportsCar 0, Stmt.constructSUV 1,
      Stmt.constructSUV 0, Stmt.constructSportsCar 1], s.isPreset = true →
      s.target < (World.mk ⟨[Car.new], [Manual.new]⟩
        [IBuilder.carBuilder ⟨some 0⟩, IBuilder.carManualBuilder ⟨some 0⟩] "").builders.length) ∧
    ∃ d' w', execAll (Director.mk none)
        (World.mk ⟨[Car.new], [Manual.new]⟩
          [IBuilder.carBuilder ⟨some 0⟩, IBuilder.carManualBuilder ⟨some 0⟩] "")
        [Stmt.setBuilder 1, Stmt.constructSportsCar 0, Stmt.constructSUV 1,
          Stmt.constructSUV 0, Stmt.constructSportsCar 1] = some ([], d', w') ∧
      d'.builder = some 1 ∧
      (w'.inProgress 0).map Product.fields =
        some { engine := false, gps := true, tripComputer := false, seats := 5 } ∧
      (w'.inProgress 1).map Product.fields =
        some { engine := true, gps := false, tripComputer := true, seats := 2 } := by
  refine ⟨by decide, by decide, ?_⟩
  obtain ⟨d', w', h1, _, _, _, h2, _, h3, h4⟩ :=
    C8_director_retains_no_state
      [Stmt.setBuilder 1, Stmt.constructSportsCar 0, Stmt.constructSUV 1,
        Stmt.constructSUV 0, Stmt.constructSportsCar 1] (Director.mk none)
      (World.mk ⟨[Car.new], [Manual.new]⟩
        [IBuilder.carBuilder ⟨some 0⟩, IBuilder.carManualBuilder ⟨some 0⟩] "")
      (by decide) (by decide)
  exact ⟨d', w', h1,
    h2 [] [Stmt.constructSportsCar 0, Stmt.constructSUV 1, Stmt.constructSUV 0,
      Stmt.constructSportsCar 1] 1 rfl (by simp),
    h4 [Stmt.setBuilder 1, Stmt.constructSportsCar 0, Stmt.constructSUV 1]
      [Stmt.constructSportsCar 1] 0 rfl (by decide),
    h3 [Stmt.setBuilder 1, Stmt.constructSportsCar 0, Stmt.constructSUV 1,
      Stmt.constructSUV 0] [] 1 rfl (by decide)⟩

/-- C9, evaluated on the class declarations: `Manual` names `Car` as its public base class, so
a `Manual` is usable where a `Car` is expected (but not the converse), the member functions
callable on a `Manual` are exactly those of `Car`, and the `Manual` that a
`CarManualBuilder` hands out carries a `Car` base subobject with the configured fields. -/
theorem C9_manual_derives_from_car :
    ClassName.Manual.publicBases = [ClassName.Car] ∧
    ClassName.convertsTo ClassName.Manual ClassName.Car = true ∧
    ClassName.convertsTo ClassName.Car ClassName.Manual = false ∧
    ClassName.interface 7 ClassName.Manual = ClassName.interface 7 ClassName.Car ∧
    ClassName.interface 7 ClassName.Car = ["setSeats", "setEngine", "setGPS", "setTripComputer"] ∧
    (Manual.mk { engine := true, gps := false, tripComputer := true, seats := 2 }).toCar =
      { engine := true, gps := false, tripComputer := true, seats := 2 } := by
  decide

/-- C10 (builder operations never fail). Start from a freshly constructed `CarBuilder` or
`CarManualBuilder` (`b` only selects the class) and perform any sequence of `reset`, setter
and `getProduct` calls: every call returns, and in the state reached the builder's pointer
designates an object of the store; there every interface call and `getProduct` is defined,
an interface call leaves the builder with an in-progress product, and `getProduct` returns
the in-progress product and leaves the empty product in progress. -/
theorem C10_operations_never_fail (b : IBuilder) (m0 : Memory) (os : List Op) :
    ∃ rs b1 m1, (b.construct m0).1.run (b.construct m0).2 os = some (rs, b1, m1) ∧
      (∃ q p, b1.pointer = some q ∧ b1.objectAt m1 q = some p ∧ b1.inProgress m1 = some p) ∧
      (∀ c : Call, ∃ b2 m2, b1.call m1 c = some (b2, m2) ∧ (b2.inProgress m2).isSome = true) ∧
      ∃ product b2 m2, b1.getProduct m1 = some (product, b2, m2) ∧
        b1.inProgress m1 = some product ∧
        b2.inProgress m2 = (b.construct m0).1.inProgress (b.construct m0).2 ∧
        (b2.inProgress m2).map Product.fields =
          some { engine := false, gps := false, tripComputer := false, seats := 0 } := by
  obtain ⟨h0, hf⟩ := construct_inProgress b m0
  obtain ⟨b1, m1, h1, h2, h3⟩ := run_spec os h0
  obtain ⟨q, hq, hp⟩ := (inProgress_iff _ _ _).1 h2
  obtain ⟨b2, m2, h4, h5, _⟩ := getProduct_inProgress h2
  rw [← fresh_eq_of_inProgress h2, h3, hf] at h5
  refine ⟨_, b1, m1, h1, ⟨q, _, hq, hp, h2⟩, ?_, _, b2, m2, h4, h2, by rw [h5, h0], ?_⟩
  · intro c
    obtain ⟨b3, m3, h6, h7, _⟩ := call_inProgress c h2
    exact ⟨b3, m3, h6, by simp [h7]⟩
  · rw [h5]
    simp [fresh_fields]

/-- C11 (setters are independent). Each setter of `Car` leaves the three other data members
as they are. On a `CarBuilder` or `CarManualBuilder` that owns an in-progress product, a
setter call `k1` succeeds and changes no field of that product other than its own; two
setter calls `k1`, `k2` on distinct fields give the same builder and store in either order;
and after `reset`, the four setter calls of the sports preset (of the utility preset) in any
order `cs` give the same builder and store as in the director's order, with the preset's
configuration in progress. -/
theorem C11_setters_are_independent (b : IBuilder) (m : Memory) (p : Product) (k1 k2 : Call)
    (cs : List Call) (hp : b.inProgress m = some p)
    (hk1 : k1.isSetter = true) (hk2 : k2.isSetter = true) (hne : k1.field? ≠ k2.field?) :
    (∀ (c : Car) (n : Nat) (x : Bool),
      ((c.setSeats n).engine = c.engine ∧ (c.setSeats n).gps = c.gps ∧
        (c.setSeats n).tripComputer = c.tripComputer) ∧
      ((c.setEngine x).seats = c.seats ∧ (c.setEngine x).gps = c.gps ∧
        (c.setEngine x).tripComputer = c.tripComputer) ∧
      ((c.setGPS x).seats = c.seats ∧ (c.setGPS x).engine = c.engine ∧
        (c.setGPS x).tripComputer = c.tripComputer) ∧
      ((c.setTripComputer x).seats = c.seats ∧ (c.setTripComputer x).engine = c.engine ∧
        (c.setTripComputer x).gps = c.gps)) ∧
    (∃ b1 m1 p1, b.call m k1 = some (b1, m1) ∧ b1.inProgress m1 = some p1 ∧
      (k1.field? ≠ some Field.seats → p1.fields.seats = p.fields.seats) ∧
      (k1.field? ≠ some Field.engine → p1.fields.engine = p.fields.engine) ∧
      (k1.field? ≠ some Field.tripComputer → p1.fields.tripComputer = p.fields.tripComputer) ∧
      (k1.field? ≠ some Field.gps → p1.fields.gps = p.fields.gps)) ∧
    (∃ b2 m2, b.calls m [k1, k2] = some (b2, m2) ∧ b.calls m [k2, k1] = some (b2, m2)) ∧
    (cs.Perm [Call.setSeats 2, Call.setEngine true, Call.setTripComputer true,
        Call.setGPS false] →
      ∃ b3 m3, b.calls m (Call.reset :: cs) = some (b3, m3) ∧
        b.calls m [Call.reset, Call.setSeats 2, Call.setEngine true, Call.setTripComputer true,
          Call.setGPS false] = some (b3, m3) ∧
        (b3.inProgress m3).map Product.fields =
          some { engine := true, gps := false, tripComputer := true, seats := 2 }) ∧
    (cs.Perm [Call.setSeats 5, Call.setEngine false, Call.setTripComputer false,
        Call.setGPS true] →
      ∃ b3 m3, b.calls m (Call.reset :: cs) = some (b3, m3) ∧
        b.calls m [Call.reset, Call.setSeats 5, Call.setEngine false,
          Call.setTripComputer false, Call.setGPS true] = some (b3, m3) ∧
        (b3.inProgress m3).map Product.fields =
          some { engine := false, gps := true, tripComputer := false, seats := 5 }) := by
  refine ⟨fun c n x => ⟨⟨rfl, rfl, rfl⟩, ⟨rfl, rfl, rfl⟩, ⟨rfl, rfl, rfl⟩, ⟨rfl, rfl, rfl⟩⟩,
    ?_, ?_, ?_, ?_⟩
  · obtain ⟨b1, m1, h1, h2, _⟩ := call_inProgress k1 hp
    obtain ⟨f1, f2, f3, f4⟩ := after_frame p.fields hk1
    refine ⟨b1, m1, _, h1, h2, ?_, ?_, ?_, ?_⟩ <;> rw [fields_after]
    · exact f1
    · exact f2
    · exact f3
    · exact f4
  · obtain ⟨b2, m2, h1, _, _⟩ := calls_spec [k1, k2] hp
    exact ⟨b2, m2, h1, by rw [← calls_swap b m hk1 hk2 hne]; exact h1⟩
  · intro hcs
    obtain ⟨b3, m3, h1, h2, h3⟩ := calls_reset_perm b m hp (by decide) (by decide) hcs
    exact ⟨b3, m3, h1, h2, by rw [h3]; simp [Car.after, Car.setSeats, Car.setEngine,
      Car.setTripComputer, Car.setGPS, Car.new, uint8_t]⟩
  · intro hcs
    obtain ⟨b3, m3, h1, h2, h3⟩ := calls_reset_perm b m hp (by decide) (by decide) hcs
    exact ⟨b3, m3, h1, h2, by rw [h3]; simp [Car.after, Car.setSeats, Car.setEngine,
      Car.setTripComputer, Car.setGPS, Car.new, uint8_t]⟩

/-- Witness of C11 on a `CarBuilder` that holds the utility configuration: `setSeats(3)` and
`setGPS(false)` commute, and after `reset` the sports setters in the order gps, trip computer,
seats, engine give the sports configuration. -/
theorem C11_setters_are_independent_witness :
    (IBuilder.carBuilder ⟨some 0⟩).inProgress ⟨[⟨false, true, false, 5⟩], []⟩
      = some (Product.car ⟨false, true, false, 5⟩) ∧
    (Call.setSeats 3).isSetter = true ∧ (Call.setGPS false).isSetter = true ∧
    (Call.setSeats 3).field? ≠ (Call.setGPS false).field? ∧
    (∃ b2 m2,
      (IBuilder.carBuilder ⟨some 0⟩).calls ⟨[⟨false, true, false, 5⟩], []⟩
        [Call.setSeats 3, Call.setGPS false] = some (b2, m2) ∧
      (IBuilder.carBuilder ⟨some 0⟩).calls ⟨[⟨false, true, false, 5⟩], []⟩
        [Call.setGPS false, Call.setSeats 3] = some (b2, m2)) ∧
    ∃ b3 m3,
      (IBuilder.carBuilder ⟨some 0⟩).calls ⟨[⟨false, true, false, 5⟩], []⟩
        [Call.reset, Call.setGPS false, Call.setTripComputer true, Call.setSeats 2,
          Call.setEngine true] = some (b3, m3) ∧
      (b3.inProgress m3).map Product.fields =
        some { engine := true, gps := false, tripComputer := true, seats := 2 } := by
  refine ⟨rfl, rfl, rfl, by decide, ?_⟩
  obtain ⟨_, _, h1, h2, _⟩ :=
    C11_setters_are_independent (IBuilder.carBuilder ⟨some 0⟩)
      ⟨[⟨false, true, false, 5⟩], []⟩ (Product.car ⟨false, true, false, 5⟩)
      (Call.setSeats 3) (Call.setGPS false)
      [Call.setGPS false, Call.setTripComputer true, Call.setSeats 2, Call.setEngine true]
      rfl rfl rfl (by decide)
  obtain ⟨b3, m3, h3, _, h4⟩ := h2 (by decide)
  exact ⟨h1, b3, m3, h3, h4⟩

/-- C12 (confirmation output and demo run). For every builder object that `builder`
designates, `constructSportsCar(builder)` succeeds and appends exactly
"Sports Car constructed\n" to `std::cout`, and `constructSUV(builder)` exactly
"SUV car constructed\n"; the interface calls and `getProduct` write nothing. The program
started in the initial state prints exactly
"Sports Car constructed\nSports Car constructed\n", `Application::makeCar` retrieves a `Car`
and a `Manual` that both hold the sports configuration, and `main` returns 0; started with
any other state it appends the same two lines. -/
theorem C12_confirmation_output (d : Director) (w : World) (builder : Nat) (b : IBuilder)
    (hb : w.builders[builder]? = some b) :
    (∃ d1 w1, d.constructSportsCar builder w = some (d1, w1) ∧
      w1.cout = w.cout ++ "Sports Car constructed\n") ∧
    (∃ d1 w1, d.constructSUV builder w = some (d1, w1) ∧
      w1.cout = w.cout ++ "SUV car constructed\n") ∧
    (∀ c w1, w.vcall builder (fun b m => b.call m c) = some w1 → w1.cout = w.cout) ∧
    (∀ x w1, w.getProduct builder = some (x, w1) → w1.cout = w.cout) ∧
    (∃ w', Application.makeCar World.initial =
        some ({ engine := true, gps := false, tripComputer := true, seats := 2 },
          { toCar := { engine := true, gps := false, tripComputer := true, seats := 2 } }, w') ∧
      main World.initial = some (0, w') ∧
      w'.cout = "Sports Car constructed\nSports Car constructed\n") ∧
    (∃ w', Application.makeCar w =
        some ({ engine := true, gps := false, tripComputer := true, seats := 2 },
          { toCar := { engine := true, gps := false, tripComputer := true, seats := 2 } }, w') ∧
      main w = some (0, w') ∧
      w'.cout = w.cout ++ "Sports Car constructed\nSports Car constructed\n") := by
  refine ⟨⟨d, _, constructSportsCar_eq d w builder b hb, rfl⟩,
    ⟨d, _, constructSUV_eq d w builder b hb, rfl⟩, fun c w1 h => vcall_cout h,
    fun x w1 h => getProduct_cout h, ?_, ?_⟩
  · obtain ⟨w', h1, h2⟩ := makeCar_cout World.initial
    exact ⟨w', h1, by simp [main, h1], by rw [h2]; rfl⟩
  · obtain ⟨w', h1, h2⟩ := makeCar_cout w
    exact ⟨w', h1, by simp [main, h1], h2⟩

/-- Witness of C12: a `CarManualBuilder` in a state where one line has been printed. -/
theorem C12_confirmation_output_witness :
    (World.mk ⟨[], [Manual.new]⟩ [IBuilder.carManualBuilder ⟨some 0⟩]
      "SUV car constructed\n").builders[0]? = some (IBuilder.carManualBuilder ⟨some 0⟩) ∧
    (∃ d1 w1, (Director.mk none).constructSportsCar 0
        (World.mk ⟨[], [Manual.new]⟩ [IBuilder.carManualBuilder ⟨some 0⟩]
          "SUV car constructed\n") = some (d1, w1) ∧
      w1.cout = "SUV car constructed\nSports Car constructed\n") ∧
    ∃ w', main World.initial = some (0, w') ∧
      w'.cout = "Sports Car constructed\nSports Car constructed\n" := by
  refine ⟨rfl, ?_⟩
  obtain ⟨⟨d1, w1, h1, h2⟩, _, _, _, ⟨w', _, h3, h4⟩, _⟩ :=
    C12_confirmation_output (Director.mk none)
      (World.mk ⟨[], [Manual.new]⟩ [IBuilder.carManualBuilder ⟨some 0⟩]
        "SUV car constructed\n") 0 (IBuilder.carManualBuilder ⟨some 0⟩) rfl
  exact ⟨⟨d1, w1, h1, by rw [h2]; rfl⟩, w', h3, h4⟩

end BuilderPattern

namespace FactoryPattern

/-- C13 (factory method dispatch and call order). For every concrete dialog, `Dialog::render`
is `onClick(0)` followed by `render(0, 1)` on the button its own `createButton` returns: a
`WindowsButton` for a `WindowsDialog`, an `HTMLButton` for a `WebDialog`. Hence
`WindowsDialog::render` appends exactly "WindowsButton clicked\n" and then
"Rendering a WindowsButton\n" to `std::cout`, `WebDialog::render` exactly
"HTMLButton clicked\n" and then "Rendering a HTMLButton\n", and neither writes to
`std::cerr`. -/
theorem C13_render_dispatch (dialog : Dialog) (s : Streams) :
    dialog.render s = dialog.createButton.render 0 1 (dialog.createButton.onClick 0 s) ∧
    Dialog.windowsDialog.createButton = IButton.windowsButton ∧
    Dialog.webDialog.createButton = IButton.htmlButton ∧
    Dialog.windowsDialog.render s =
      { cout := s.cout ++ "WindowsButton clicked\n" ++ "Rendering a WindowsButton\n",
        cerr := s.cerr } ∧
    Dialog.webDialog.render s =
      { cout := s.cout ++ "HTMLButton clicked\n" ++ "Rendering a HTMLButton\n",
        cerr := s.cerr } ∧
    Dialog.windowsDialog.render { cout := "", cerr := "" } =
      { cout := "WindowsButton clicked\nRendering a WindowsButton\n", cerr := "" } ∧
    Dialog.webDialog.render { cout := "", cerr := "" } =
      { cout := "HTMLButton clicked\nRendering a HTMLButton\n", cerr := "" } := by
  refine ⟨rfl, rfl, rfl, rfl, rfl, ?_, ?_⟩ <;> decide

/-- C14 (the factory program's selection is safe). From every state of the application,
also one whose `dialog` pointer is unassigned, `initialize` sets `dialog` to a `WebDialog`
and writes nothing (the error branch is not taken), so `start` is defined: it renders the
`WebDialog` once. The program `main`, which runs `initialize` directly and again inside
`start`, prints exactly "HTMLButton clicked\nRendering a HTMLButton\n" to `std::cout`,
nothing to `std::cerr`, and returns 0. -/
theorem C14_factory_program (app : Application) (s : Streams) :
    app.initialise s = ({ dialog := some Dialog.webDialog }, s) ∧
    app.start s = some ({ dialog := some Dialog.webDialog }, Dialog.webDialog.render s) ∧
    app.start s = some ({ dialog := some Dialog.webDialog },
      { cout := s.cout ++ "HTMLButton clicked\n" ++ "Rendering a HTMLButton\n",
        cerr := s.cerr }) ∧
    main s = some (0,
      { cout := s.cout ++ "HTMLButton clicked\n" ++ "Rendering a HTMLButton\n",
        cerr := s.cerr }) ∧
    main { cout := "", cerr := "" } =
      some (0, { cout := "HTMLButton clicked\nRendering a HTMLButton\n", cerr := "" }) := by
  have hi : ∀ (a : Application) (t : Streams),
      a.initialise t = ({ dialog := some Dialog.webDialog }, t) := by
    intro a t
    simp [Application.initialise]
  have hs : ∀ (a : Application) (t : Streams),
      a.start t = some ({ dialog := some Dialog.webDialog }, Dialog.webDialog.render t) := by
    intro a t
    simp [Application.start, hi]
  refine ⟨hi app s, hs app s, by rw [hs]; rfl, by simp only [main, hi, hs]; rfl, by decide⟩

end FactoryPattern

namespace AbstractFactoryPattern

/-- C15, evaluated on the text of the source: the four factory member functions name the
classes `WinButton`, `WinCheckbox`, `MacButton` and `MacCheckbox`, each of the factory's own
family by its name, but the file defines no class `MacCheckbox`, so
`MacFactory::createCheckbox` names a class that does not exist; every override writes a return
type other than the one the interface declares; and the `paint` bodies of the two buttons
write to the unqualified name `cout` while the file has no using-declaration. -/
theorem C15_mac_checkbox_is_not_defined :
    instantiates Factory.WinFactory Method.createButton = "WinButton" ∧
    instantiates Factory.WinFactory Method.createCheckbox = "WinCheckbox" ∧
    instantiates Factory.MacFactory Method.createButton = "MacButton" ∧
    instantiates Factory.MacFactory Method.createCheckbox = "MacCheckbox" ∧
    isDefined (instantiates Factory.WinFactory Method.createButton) = true ∧
    isDefined (instantiates Factory.WinFactory Method.createCheckbox) = true ∧
    isDefined (instantiates Factory.MacFactory Method.createButton) = true ∧
    isDefined (instantiates Factory.MacFactory Method.createCheckbox) = false ∧
    (∀ (f : Factory) (k : Method), overrideReturnType f k ≠ interfaceReturnType k) ∧
    paintStream "WinButton" = some "cout" ∧ paintStream "MacButton" = some "cout" ∧
    paintStream "MacCheckbox" = none ∧ usingDeclarations = [] := by
  refine ⟨rfl, rfl, rfl, rfl, by decide, by decide, by decide, by decide, ?_, by decide,
    by decide, by decide, rfl⟩
  intro f k
  cases f <;> cases k <;> decide

end AbstractFactoryPattern
